import Mathlib

/-!
Verification of the associated-token-account instruction builders and the
token state-record codecs (`Mint`, `Account`, `Multisig`) of the solana-go
repository, file `programs/associated-token-account/CreateIdempotent.go`.

Bytes are modelled as `Nat` values below 256; byte buffers as `List Nat`.
Decoders are cursor-passing functions returning `Except CodecErr (α × List Nat)`
where the second component is the unconsumed suffix of the buffer; encoders are
pure functions producing the byte list they would append to the sink (the Go
encoder over a memory buffer never fails).
-/

/-- Value of a little-endian byte list. -/
def leVal : List Nat → Nat
  | [] => 0
  | b :: rest => b + 256 * leVal rest

/-- Little-endian bytes of a value, `n` bytes wide. -/
def leBytes : Nat → Nat → List Nat
  | 0, _ => []
  | n + 1, v => v % 256 :: leBytes n (v / 256)

/-- Codec-level error. Modelled from the spec: the primitive codec (the
external `ag_binary` decoder) fails with `UnexpectedEOF` when the cursor has
fewer remaining bytes than a read requests. -/
inductive CodecErr where
  | unexpectedEOF
deriving DecidableEq, Repr

/-- Modelled from the spec: `ReadNBytes(n)` of the primitive codec — take `n`
bytes from the cursor, or fail with `UnexpectedEOF` when fewer remain. -/
def readNBytes (n : Nat) (b : List Nat) : Except CodecErr (List Nat × List Nat) :=
  if n ≤ b.length then .ok (b.take n, b.drop n) else .error .unexpectedEOF

/-- Modelled from the spec: the little-endian unsigned-integer reads of the
primitive codec (`ReadUint8` / `ReadUint32` / `ReadUint64` are `n` = 1, 4, 8). -/
def readUintLE (n : Nat) (b : List Nat) : Except CodecErr (Nat × List Nat) :=
  if n ≤ b.length then .ok (leVal (b.take n), b.drop n) else .error .unexpectedEOF

/-- Modelled from the spec: `ReadBool` of the primitive codec — one byte,
`0x00` is `false`, any nonzero byte is `true`. -/
def readBool (b : List Nat) : Except CodecErr (Bool × List Nat) :=
  match readUintLE 1 b with
  | .error e => .error e
  | .ok (v, rest) => .ok (decide (v ≠ 0), rest)

/-- Modelled from the spec: `WriteBytes(b, false)` of the primitive codec —
append the raw bytes, no length tag. -/
def writeBytes (b : List Nat) : List Nat := b

/-- Modelled from the spec: the little-endian unsigned-integer writes of the
primitive codec (`WriteUint8` / `WriteUint32` / `WriteUint64`). -/
def writeUintLE (n v : Nat) : List Nat := leBytes n v

/-- Modelled from the spec: `WriteBool` — one byte, `1` for `true`, `0` for
`false`. -/
def writeBool (v : Bool) : List Nat := [if v then 1 else 0]

/-- A 32-byte public key (`ag_solanago.PublicKey`, a `[32]byte`). -/
def PubKey := { l : List Nat // l.length = 32 }

instance : DecidableEq PubKey := fun a b =>
  decidable_of_iff (a.val = b.val) Subtype.ext_iff.symm

/-- Go `PublicKeyFromBytes`: copy up to 32 bytes into a zero-initialized
32-byte array. -/
def publicKeyFromBytes (l : List Nat) : PubKey :=
  ⟨(l ++ List.replicate 32 0).take 32, by
    simp [List.length_take, List.length_append]⟩

/-- The all-zero public key; `PublicKey.IsZero` tests equality with it. -/
def zeroKey : PubKey := ⟨List.replicate 32 0, by simp⟩

/-- Token `Mint` state record. -/
structure Mint where
  mintAuthority : Option PubKey
  supply : Nat
  decimals : Nat
  isInitialized : Bool
  freezeAuthority : Option PubKey
deriving DecidableEq

/-- The optional-32-byte-key decode pattern of `Mint.UnmarshalWithDecoder` and
`Account.UnmarshalWithDecoder`: read a u32 presence flag, read 32 payload bytes
unconditionally, keep them only when the flag is exactly 1. -/
def decodeOptionKey (b : List Nat) : Except CodecErr (Option PubKey × List Nat) :=
  match readUintLE 4 b with
  | .error e => .error e
  | .ok (v, b1) =>
    match readNBytes 32 b1 with
    | .error e => .error e
    | .ok (k, b2) =>
      if v = 1 then .ok (some (publicKeyFromBytes k), b2) else .ok (none, b2)

/-- The optional-u64 decode pattern of `Account.UnmarshalWithDecoder`. -/
def decodeOptionU64 (b : List Nat) : Except CodecErr (Option Nat × List Nat) :=
  match readUintLE 4 b with
  | .error e => .error e
  | .ok (v, b1) =>
    match readUintLE 8 b1 with
    | .error e => .error e
    | .ok (x, b2) =>
      if v = 1 then .ok (some x, b2) else .ok (none, b2)

/-- The optional-32-byte-key encode pattern of `Mint.MarshalWithEncoder` and
`Account.MarshalWithEncoder`: u32 flag 1 and the key bytes when present, u32
flag 0 and 32 zero bytes when absent. -/
def encodeOptionKey : Option PubKey → List Nat
  | none => writeUintLE 4 0 ++ writeBytes (List.replicate 32 0)
  | some k => writeUintLE 4 1 ++ writeBytes k.val

/-- The optional-u64 encode pattern of `Account.MarshalWithEncoder`. -/
def encodeOptionU64 : Option Nat → List Nat
  | none => writeUintLE 4 0 ++ writeUintLE 8 0
  | some v => writeUintLE 4 1 ++ writeUintLE 8 v

/-- Go `Mint.UnmarshalWithDecoder`: optional mint authority, u64 supply, u8
decimals, bool initialized, optional freeze authority, in order. -/
def Mint.unmarshalWithDecoder (b : List Nat) : Except CodecErr (Mint × List Nat) :=
  match decodeOptionKey b with
  | .error e => .error e
  | .ok (ma, b1) =>
    match readUintLE 8 b1 with
    | .error e => .error e
    | .ok (supply, b2) =>
      match readUintLE 1 b2 with
      | .error e => .error e
      | .ok (dec, b3) =>
        match readBool b3 with
        | .error e => .error e
        | .ok (ini, b4) =>
          match decodeOptionKey b4 with
          | .error e => .error e
          | .ok (fa, b5) =>
            .ok ({ mintAuthority := ma, supply := supply, decimals := dec,
                   isInitialized := ini, freezeAuthority := fa }, b5)

/-- Go `Mint.MarshalWithEncoder`: the same five fields, in order. -/
def Mint.marshalWithEncoder (m : Mint) : List Nat :=
  encodeOptionKey m.mintAuthority ++ writeUintLE 8 m.supply ++
    writeUintLE 1 m.decimals ++ writeBool m.isInitialized ++
    encodeOptionKey m.freezeAuthority

/-- Token `Account` state record. `state` is the `AccountState` enum stored as
a raw u8 with no range check. -/
structure Account where
  mint : PubKey
  owner : PubKey
  amount : Nat
  delegate : Option PubKey
  state : Nat
  isNative : Option Nat
  delegatedAmount : Nat
  closeAuthority : Option PubKey
deriving DecidableEq

/-- Go `Account.UnmarshalWithDecoder`: mint key, owner key, u64 amount,
optional delegate key, u8 state, optional-u64 isNative, u64 delegated amount,
optional close-authority key, in order. -/
def Account.unmarshalWithDecoder (b : List Nat) : Except CodecErr (Account × List Nat) :=
  match readNBytes 32 b with
  | .error e => .error e
  | .ok (mintBytes, b1) =>
    match readNBytes 32 b1 with
    | .error e => .error e
    | .ok (ownerBytes, b2) =>
      match readUintLE 8 b2 with
      | .error e => .error e
      | .ok (amount, b3) =>
        match decodeOptionKey b3 with
        | .error e => .error e
        | .ok (dl, b4) =>
          match readUintLE 1 b4 with
          | .error e => .error e
          | .ok (st, b5) =>
            match decodeOptionU64 b5 with
            | .error e => .error e
            | .ok (nat8, b6) =>
              match readUintLE 8 b6 with
              | .error e => .error e
              | .ok (damt, b7) =>
                match decodeOptionKey b7 with
                | .error e => .error e
                | .ok (ca, b8) =>
                  .ok ({ mint := publicKeyFromBytes mintBytes,
                         owner := publicKeyFromBytes ownerBytes,
                         amount := amount, delegate := dl, state := st,
                         isNative := nat8, delegatedAmount := damt,
                         closeAuthority := ca }, b8)

/-- Go `Account.MarshalWithEncoder`: the same eight fields, in order
(`state` is written with `WriteUint8`, hence reduced mod 256). -/
def Account.marshalWithEncoder (a : Account) : List Nat :=
  writeBytes a.mint.val ++ writeBytes a.owner.val ++ writeUintLE 8 a.amount ++
    encodeOptionKey a.delegate ++ writeUintLE 1 a.state ++
    encodeOptionU64 a.isNative ++ writeUintLE 8 a.delegatedAmount ++
    encodeOptionKey a.closeAuthority

/-- Token `Multisig` state record. The signer array's fixed capacity
`MAX_SIGNERS` is a constant defined outside the given source; it is kept as the
explicit parameter `maxSigners` of the codec below. -/
structure Multisig where
  m : Nat
  n : Nat
  isInitialized : Bool
  signers : List PubKey
deriving DecidableEq

/-- Reading `k` consecutive 32-byte keys (the fixed signer array). -/
def readKeys : Nat → List Nat → Except CodecErr (List PubKey × List Nat)
  | 0, b => .ok ([], b)
  | k + 1, b =>
    match readNBytes 32 b with
    | .error e => .error e
    | .ok (key, b1) =>
      match readKeys k b1 with
      | .error e => .error e
      | .ok (ks, b2) => .ok (publicKeyFromBytes key :: ks, b2)

/-- Writing the signer keys back, 32 raw bytes each. -/
def writeKeys : List PubKey → List Nat
  | [] => []
  | k :: ks => writeBytes k.val ++ writeKeys ks

/-- Go `Multisig.UnmarshalWithDecoder`. Modelled from the spec for the
reflection-driven `decoder.Decode` calls: wire form is
`[u8 m][u8 n][u8-as-bool][maxSigners × 32B]`, read in order. -/
def Multisig.unmarshalWithDecoder (maxSigners : Nat) (b : List Nat) :
    Except CodecErr (Multisig × List Nat) :=
  match readUintLE 1 b with
  | .error e => .error e
  | .ok (m, b1) =>
    match readUintLE 1 b1 with
    | .error e => .error e
    | .ok (n, b2) =>
      match readBool b2 with
      | .error e => .error e
      | .ok (ini, b3) =>
        match readKeys maxSigners b3 with
        | .error e => .error e
        | .ok (ks, b4) =>
          .ok ({ m := m, n := n, isInitialized := ini, signers := ks }, b4)

/-- Go `Multisig.MarshalWithEncoder`. Modelled from the spec for the
reflection-driven `encoder.Encode` calls: the same fields written in order. -/
def Multisig.marshalWithEncoder (ms : Multisig) : List Nat :=
  writeUintLE 1 ms.m ++ writeUintLE 1 ms.n ++ writeBool ms.isInitialized ++
    writeKeys ms.signers

/-- Canonicity of an optional field at the head of buffer `b` with a `size`
byte payload: the presence flag is 1, or it is 0 with an all-zero payload
slot. -/
def canonOpt (b : List Nat) (size : Nat) : Prop :=
  leVal (b.take 4) = 1 ∨
    (leVal (b.take 4) = 0 ∧ (b.drop 4).take size = List.replicate size 0)

/-- Canonicity of a boolean byte at the head of buffer `b`: it is 0 or 1. -/
def canonBool (b : List Nat) : Prop :=
  b.take 1 = [0] ∨ b.take 1 = [1]

/-- Go `ag_solanago.AccountMeta`: an address with write and signer flags. -/
structure AccountMeta where
  publicKey : PubKey
  isWritable : Bool
  isSigner : Bool
deriving DecidableEq

/-- Go `ag_solanago.Meta(pk)`: a read-only non-signer role. -/
def Meta (pk : PubKey) : AccountMeta :=
  { publicKey := pk, isWritable := false, isSigner := false }

/-- Go `AccountMeta.WRITE()`. -/
def AccountMeta.write (m : AccountMeta) : AccountMeta := { m with isWritable := true }

/-- Go `AccountMeta.SIGNER()`. -/
def AccountMeta.signer (m : AccountMeta) : AccountMeta := { m with isSigner := true }

/-- Go `ag_solanago.AccountMetaSlice`: slots hold `Option AccountMeta` since a
Go slice element may be nil. -/
def AccountMetaSlice := List (Option AccountMeta)

instance : DecidableEq AccountMetaSlice :=
  inferInstanceAs (DecidableEq (List (Option AccountMeta)))

/-- The external address-derivation collaborator: a pure function from seed
byte strings and a program id to an address, a bump and a validity flag. -/
def DeriveFn := List (List Nat) → PubKey → PubKey × Nat × Bool

/-- Modelled from the spec: `ag_solanago.FindAssociatedTokenAddress` (defined
outside the given source) invokes the external derivation function with seeds
`(walletKey, tokenProgramKey, mintKey)`, in that order, against the fixed
owning-program id of the associated-token-account program. -/
def findAssociatedTokenAddress (derive : DeriveFn) (ataProgID : PubKey)
    (wallet mint tokenProgID : PubKey) : PubKey × Nat × Bool :=
  derive [wallet.val, tokenProgID.val, mint.val] ataProgID

/-- Modelled from the spec: the one-byte instruction discriminants are
distinct constants per variant (their concrete values are defined outside the
given source). -/
def Instruction_Create : Nat := 0

/-- Modelled from the spec: discriminant of the idempotent variant. -/
def Instruction_CreateIdempotent : Nat := 1

/-- An emitted instruction value: the populated role list plus its one-byte
discriminant (`ag_binary.BaseVariant` with `Impl` and `TypeID`). -/
structure Instruction where
  impl : AccountMetaSlice
  typeID : Nat
deriving DecidableEq

/-- First index whose slot is nil, scanning ascending from `i` (the loop body
of `Validate`). -/
def firstUnset : AccountMetaSlice → Nat → Option Nat
  | [], _ => none
  | (none : Option AccountMeta) :: _, i => some i
  | some _ :: rest, i => firstUnset rest (i + 1)

/-- Go `CreateIdempotent` builder: a wrapped `AccountMetaSlice`. -/
structure CreateIdempotent where
  accounts : AccountMetaSlice
deriving DecidableEq

/-- Go `NewCreateIdempotentInstructionBuilder`: 7 slots, with slots 4, 5, 6
pre-populated by the well-known system-program, token-program and rent-sysvar
ids (taken here as parameters, being constants defined outside the source). -/
def newCreateIdempotentInstructionBuilder (sysProgID tokenProgID rentID : PubKey) :
    CreateIdempotent :=
  ⟨(((List.replicate 7 (none : Option AccountMeta)).set 4
      (some (Meta sysProgID))).set 5 (some (Meta tokenProgID))).set 6
      (some (Meta rentID))⟩

/-- Go `CreateIdempotent.SetPayer`: slot 0 becomes WRITE and SIGNER. -/
def CreateIdempotent.setPayer (inst : CreateIdempotent) (payer : PubKey) :
    CreateIdempotent :=
  ⟨inst.accounts.set 0 (some ((Meta payer).write.signer))⟩

/-- Go `CreateIdempotent.GetPayer` (nil pointer modelled as `none`). -/
def CreateIdempotent.getPayer (inst : CreateIdempotent) : Option AccountMeta :=
  inst.accounts.getD 0 none

/-- Go `CreateIdempotent.SetAssociatedTokenAccount`: slot 1 becomes WRITE. -/
def CreateIdempotent.setAssociatedTokenAccount (inst : CreateIdempotent)
    (ata : PubKey) : CreateIdempotent :=
  ⟨inst.accounts.set 1 (some ((Meta ata).write))⟩

/-- Go `CreateIdempotent.GetAssociatedTokenAccount`. -/
def CreateIdempotent.getAssociatedTokenAccount (inst : CreateIdempotent) :
    Option AccountMeta :=
  inst.accounts.getD 1 none

/-- Go `CreateIdempotent.SetWallet`: slot 2, read-only non-signer. -/
def CreateIdempotent.setWallet (inst : CreateIdempotent) (wallet : PubKey) :
    CreateIdempotent :=
  ⟨inst.accounts.set 2 (some (Meta wallet))⟩

/-- Go `CreateIdempotent.GetWallet`. -/
def CreateIdempotent.getWallet (inst : CreateIdempotent) : Option AccountMeta :=
  inst.accounts.getD 2 none

/-- Go `CreateIdempotent.SetMint`: slot 3, read-only non-signer. -/
def CreateIdempotent.setMint (inst : CreateIdempotent) (mint : PubKey) :
    CreateIdempotent :=
  ⟨inst.accounts.set 3 (some (Meta mint))⟩

/-- Go `CreateIdempotent.GetMint`. -/
def CreateIdempotent.getMint (inst : CreateIdempotent) : Option AccountMeta :=
  inst.accounts.getD 3 none

/-- Go `CreateIdempotent.SetTokenProgramID`: slot 5, read-only non-signer. -/
def CreateIdempotent.setTokenProgramID (inst : CreateIdempotent)
    (tokenProgID : PubKey) : CreateIdempotent :=
  ⟨inst.accounts.set 5 (some (Meta tokenProgID))⟩

/-- Go `CreateIdempotent.GetTokenProgramID`. -/
def CreateIdempotent.getTokenProgramID (inst : CreateIdempotent) : Option AccountMeta :=
  inst.accounts.getD 5 none

/-- The derivation call shared by `Build` and `Validate`: Go dereferences
`GetWallet().PublicKey`, `GetMint().PublicKey` and
`GetTokenProgramID().PublicKey`; a nil slot there is a nil-pointer panic,
modelled as `none`. -/
def CreateIdempotent.deriveAta (derive : DeriveFn) (ataProgID : PubKey)
    (inst : CreateIdempotent) : Option CreateIdempotent :=
  match inst.getWallet, inst.getMint, inst.getTokenProgramID with
  | some w, some m, some p =>
    some (inst.setAssociatedTokenAccount
      (findAssociatedTokenAddress derive ataProgID w.publicKey m.publicKey
        p.publicKey).1)
  | _, _, _ => none

/-- The derive-if-unset step opening `Build` and `Validate`: derivation fires
when slot 1 is nil or holds the zero key. -/
def CreateIdempotent.deriveStep (derive : DeriveFn) (ataProgID : PubKey)
    (inst : CreateIdempotent) : Option CreateIdempotent :=
  match inst.accounts.getD 1 none with
  | none => inst.deriveAta derive ataProgID
  | some a =>
    if a.publicKey = zeroKey then inst.deriveAta derive ataProgID else some inst

/-- Go `CreateIdempotent.Build`: derive-if-unset, then wrap the slice with the
`CreateIdempotent` discriminant; `none` models the panic of the derive step. -/
def CreateIdempotent.build (derive : DeriveFn) (ataProgID : PubKey)
    (inst : CreateIdempotent) : Option Instruction :=
  (inst.deriveStep derive ataProgID).map fun inst2 =>
    { impl := inst2.accounts, typeID := Instruction_CreateIdempotent }

/-- Go `CreateIdempotent.Validate`: derive-if-unset (mutating slot 1 of the
builder), then fail on the first nil slot in ascending order. The result pairs
the post-state with `none` for success or `some i` for `MissingAccountRole{i}`;
the outer `none` models the panic of the derive step. -/
def CreateIdempotent.validate (derive : DeriveFn) (ataProgID : PubKey)
    (inst : CreateIdempotent) : Option (CreateIdempotent × Option Nat) :=
  (inst.deriveStep derive ataProgID).map fun inst2 =>
    (inst2, firstUnset inst2.accounts 0)

/-- Go `CreateIdempotent.ValidateAndBuild`: return the validation error if
any, else `Build`'s result (on the state `Validate` mutated, since the slice
backing array is shared between the value-receiver copies). -/
def CreateIdempotent.validateAndBuild (derive : DeriveFn) (ataProgID : PubKey)
    (inst : CreateIdempotent) : Option (Except Nat Instruction) :=
  match inst.validate derive ataProgID with
  | none => none
  | some (_, some i) => some (.error i)
  | some (inst2, none) =>
    match inst2.build derive ataProgID with
    | none => none
    | some ins => some (.ok ins)

/-- Go `CreateIdempotent.MarshalWithEncoder` writes an empty parameter
payload. -/
def CreateIdempotent.marshalWithEncoder : List Nat := writeBytes []

/-- Go `NewCreateIdempotentInstruction`: constructor followed by the
payer/wallet/mint/token-program setter chain. -/
def newCreateIdempotentInstruction (sysProgID tokenProgID rentID
    payer walletAddress splTokenMintAddress chosenTokenProgID : PubKey) :
    CreateIdempotent :=
  ((((newCreateIdempotentInstructionBuilder sysProgID tokenProgID rentID).setPayer
      payer).setWallet walletAddress).setMint
      splTokenMintAddress).setTokenProgramID chosenTokenProgID

/-- Go `Create` builder: a wrapped `AccountMetaSlice` (the strict variant,
textually parallel to `CreateIdempotent` in the source). -/
structure Create where
  accounts : AccountMetaSlice
deriving DecidableEq

/-- Go `NewCreateInstructionBuilder`. -/
def newCreateInstructionBuilder (sysProgID tokenProgID rentID : PubKey) : Create :=
  ⟨(((List.replicate 7 (none : Option AccountMeta)).set 4
      (some (Meta sysProgID))).set 5 (some (Meta tokenProgID))).set 6
      (some (Meta rentID))⟩

/-- Go `Create.SetPayer`. -/
def Create.setPayer (inst : Create) (payer : PubKey) : Create :=
  ⟨inst.accounts.set 0 (some ((Meta payer).write.signer))⟩

/-- Go `Create.GetPayer`. -/
def Create.getPayer (inst : Create) : Option AccountMeta :=
  inst.accounts.getD 0 none

/-- Go `Create.SetAssociatedTokenAccount`. -/
def Create.setAssociatedTokenAccount (inst : Create) (ata : PubKey) : Create :=
  ⟨inst.accounts.set 1 (some ((Meta ata).write))⟩

/-- Go `Create.GetAssociatedTokenAccount`. -/
def Create.getAssociatedTokenAccount (inst : Create) : Option AccountMeta :=
  inst.accounts.getD 1 none

/-- Go `Create.SetWallet`. -/
def Create.setWallet (inst : Create) (wallet : PubKey) : Create :=
  ⟨inst.accounts.set 2 (some (Meta wallet))⟩

/-- Go `Create.GetWallet`. -/
def Create.getWallet (inst : Create) : Option AccountMeta :=
  inst.accounts.getD 2 none

/-- Go `Create.SetMint`. -/
def Create.setMint (inst : Create) (mint : PubKey) : Create :=
  ⟨inst.accounts.set 3 (some (Meta mint))⟩

/-- Go `Create.GetMint`. -/
def Create.getMint (inst : Create) : Option AccountMeta :=
  inst.accounts.getD 3 none

/-- Go `Create.SetTokenProgramID`. -/
def Create.setTokenProgramID (inst : Create) (tokenProgID : PubKey) : Create :=
  ⟨inst.accounts.set 5 (some (Meta tokenProgID))⟩

/-- Go `Create.GetTokenProgramID`. -/
def Create.getTokenProgramID (inst : Create) : Option AccountMeta :=
  inst.accounts.getD 5 none

/-- The derivation call of `Create.Build` and `Create.Validate`; `none`
models the nil-pointer panic. -/
def Create.deriveAta (derive : DeriveFn) (ataProgID : PubKey) (inst : Create) :
    Option Create :=
  match inst.getWallet, inst.getMint, inst.getTokenProgramID with
  | some w, some m, some p =>
    some (inst.setAssociatedTokenAccount
      (findAssociatedTokenAddress derive ataProgID w.publicKey m.publicKey
        p.publicKey).1)
  | _, _, _ => none

/-- The derive-if-unset step of `Create.Build` and `Create.Validate`. -/
def Create.deriveStep (derive : DeriveFn) (ataProgID : PubKey) (inst : Create) :
    Option Create :=
  match inst.accounts.getD 1 none with
  | none => inst.deriveAta derive ataProgID
  | some a =>
    if a.publicKey = zeroKey then inst.deriveAta derive ataProgID else some inst

/-- Go `Create.Build`: like `CreateIdempotent.Build` with the `Create`
discriminant. -/
def Create.build (derive : DeriveFn) (ataProgID : PubKey) (inst : Create) :
    Option Instruction :=
  (inst.deriveStep derive ataProgID).map fun inst2 =>
    { impl := inst2.accounts, typeID := Instruction_Create }

/-- Go `Create.Validate`. -/
def Create.validate (derive : DeriveFn) (ataProgID : PubKey) (inst : Create) :
    Option (Create × Option Nat) :=
  (inst.deriveStep derive ataProgID).map fun inst2 =>
    (inst2, firstUnset inst2.accounts 0)

/-- Go `Create.ValidateAndBuild`. -/
def Create.validateAndBuild (derive : DeriveFn) (ataProgID : PubKey)
    (inst : Create) : Option (Except Nat Instruction) :=
  match inst.validate derive ataProgID with
  | none => none
  | some (_, some i) => some (.error i)
  | some (inst2, none) =>
    match inst2.build derive ataProgID with
    | none => none
    | some ins => some (.ok ins)

/-- Go `Create.MarshalWithEncoder` writes an empty parameter payload. -/
def Create.marshalWithEncoder : List Nat := writeBytes []

/-- Go `NewCreateInstruction`. -/
def newCreateInstruction (sysProgID tokenProgID rentID
    payer walletAddress splTokenMintAddress chosenTokenProgID : PubKey) : Create :=
  ((((newCreateInstructionBuilder sysProgID tokenProgID rentID).setPayer
      payer).setWallet walletAddress).setMint
      splTokenMintAddress).setTokenProgramID chosenTokenProgID

/-- One call of a builder setter, for stating that both variants respond to a
common setter sequence identically. -/
inductive SetterOp where
  | payer (k : PubKey)
  | ata (k : PubKey)
  | wallet (k : PubKey)
  | mintKey (k : PubKey)
  | tokenProg (k : PubKey)

/-- Apply one setter to a `CreateIdempotent` builder. -/
def CreateIdempotent.applyOp (inst : CreateIdempotent) : SetterOp → CreateIdempotent
  | .payer k => inst.setPayer k
  | .ata k => inst.setAssociatedTokenAccount k
  | .wallet k => inst.setWallet k
  | .mintKey k => inst.setMint k
  | .tokenProg k => inst.setTokenProgramID k

/-- Apply a setter sequence to a `CreateIdempotent` builder. -/
def CreateIdempotent.applyOps (inst : CreateIdempotent) (ops : List SetterOp) :
    CreateIdempotent :=
  ops.foldl CreateIdempotent.applyOp inst

/-- Apply one setter to a `Create` builder. -/
def Create.applyOp (inst : Create) : SetterOp → Create
  | .payer k => inst.setPayer k
  | .ata k => inst.setAssociatedTokenAccount k
  | .wallet k => inst.setWallet k
  | .mintKey k => inst.setMint k
  | .tokenProg k => inst.setTokenProgramID k

/-- Apply a setter sequence to a `Create` builder. -/
def Create.applyOps (inst : Create) (ops : List SetterOp) : Create :=
  ops.foldl Create.applyOp inst

/-- Concrete key fixture for closed witness and counterexample theorems. -/
def exKeyS : PubKey := publicKeyFromBytes [11]

/-- Concrete key fixture. -/
def exKeyT : PubKey := publicKeyFromBytes [12]

/-- Concrete key fixture. -/
def exKeyR : PubKey := publicKeyFromBytes [13]

/-- Concrete key fixture. -/
def exKeyA : PubKey := publicKeyFromBytes [1]

/-- Concrete key fixture. -/
def exKeyB : PubKey := publicKeyFromBytes [2]

/-- Concrete key fixture. -/
def exKeyC : PubKey := publicKeyFromBytes [3]

/-- Concrete key fixture. -/
def exKeyD : PubKey := publicKeyFromBytes [4]

/-- Concrete derivation-function fixture (any pure function works here). -/
def exDerive : DeriveFn := fun _ _ => (publicKeyFromBytes [9], 255, true)

/-- Concrete owning-program id fixture. -/
def exAtaProg : PubKey := publicKeyFromBytes [10]

/-- A builder whose only nil slot is 5 (the token-program slot) but whose
associated-token-account slot holds the zero key. -/
def zeroAtaNoProg : CreateIdempotent :=
  ⟨[some ((Meta exKeyA).write.signer), some ((Meta zeroKey).write),
    some (Meta exKeyB), some (Meta exKeyC), some (Meta exKeyS), none,
    some (Meta exKeyR)]⟩

theorem leVal_lt (l : List Nat) (h : ∀ x ∈ l, x < 256) : leVal l < 256 ^ l.length := by
  induction l with
  | nil => simp [leVal]
  | cons a rest ih =>
    have ha : a < 256 := h a (List.mem_cons_self a rest)
    have hr : leVal rest < 256 ^ rest.length :=
      ih (fun x hx => h x (List.mem_cons_of_mem a hx))
    simp only [leVal, List.length_cons, pow_succ]
    calc a + 256 * leVal rest < 256 + 256 * leVal rest := by omega
    _ = 256 * (leVal rest + 1) := by ring
    _ ≤ 256 * 256 ^ rest.length := by
        have : leVal rest + 1 ≤ 256 ^ rest.length := hr
        exact Nat.mul_le_mul_left 256 this
    _ = 256 ^ rest.length * 256 := by ring

theorem leBytes_leVal (l : List Nat) (h : ∀ x ∈ l, x < 256) :
    leBytes l.length (leVal l) = l := by
  induction l with
  | nil => simp [leBytes]
  | cons a rest ih =>
    have ha : a < 256 := h a (List.mem_cons_self a rest)
    have hr := ih (fun x hx => h x (List.mem_cons_of_mem a hx))
    simp only [List.length_cons, leBytes, leVal]
    have hmod : (a + 256 * leVal rest) % 256 = a := by omega
    have hdiv : (a + 256 * leVal rest) / 256 = leVal rest := by omega
    rw [hmod, hdiv, hr]

theorem readUintLE_ok {n : Nat} {b : List Nat} (h : n ≤ b.length) :
    readUintLE n b = .ok (leVal (b.take n), b.drop n) := by
  simp [readUintLE, h]

theorem readUintLE_err {n : Nat} {b : List Nat} (h : b.length < n) :
    readUintLE n b = .error .unexpectedEOF := by
  simp [readUintLE]; omega

theorem readNBytes_ok {n : Nat} {b : List Nat} (h : n ≤ b.length) :
    readNBytes n b = .ok (b.take n, b.drop n) := by
  simp [readNBytes, h]

theorem readNBytes_err {n : Nat} {b : List Nat} (h : b.length < n) :
    readNBytes n b = .error .unexpectedEOF := by
  simp [readNBytes]; omega

theorem readBool_ok {b : List Nat} (h : 1 ≤ b.length) :
    readBool b = .ok (decide (leVal (b.take 1) ≠ 0), b.drop 1) := by
  simp [readBool, readUintLE_ok h]

theorem readBool_err {b : List Nat} (h : b.length < 1) :
    readBool b = .error .unexpectedEOF := by
  simp [readBool, readUintLE_err h]

theorem decodeOptionKey_ok {b : List Nat} (h : 36 ≤ b.length) :
    decodeOptionKey b =
      .ok ((if leVal (b.take 4) = 1
              then some (publicKeyFromBytes ((b.drop 4).take 32)) else none),
           b.drop 36) := by
  have h4 : (4 : Nat) ≤ b.length := by omega
  have h32 : (32 : Nat) ≤ (b.drop 4).length := by simp [List.length_drop]; omega
  have hd : (b.drop 4).drop 32 = b.drop 36 := by
    rw [List.drop_drop]
  simp only [decodeOptionKey, readUintLE_ok h4, readNBytes_ok h32, hd]
  split <;> simp

theorem decodeOptionKey_err {b : List Nat} (h : b.length < 36) :
    decodeOptionKey b = .error .unexpectedEOF := by
  by_cases h4 : b.length < 4
  · simp [decodeOptionKey, readUintLE_err h4]
  · have h4' : (4 : Nat) ≤ b.length := by omega
    have h32 : (b.drop 4).length < 32 := by simp [List.length_drop]; omega
    simp [decodeOptionKey, readUintLE_ok h4', readNBytes_err h32]

theorem decodeOptionU64_ok {b : List Nat} (h : 12 ≤ b.length) :
    decodeOptionU64 b =
      .ok ((if leVal (b.take 4) = 1 then some (leVal ((b.drop 4).take 8)) else none),
           b.drop 12) := by
  have h4 : (4 : Nat) ≤ b.length := by omega
  have h8 : (8 : Nat) ≤ (b.drop 4).length := by simp [List.length_drop]; omega
  have hd : (b.drop 4).drop 8 = b.drop 12 := by rw [List.drop_drop]
  simp only [decodeOptionU64, readUintLE_ok h4, readUintLE_ok h8, hd]
  split <;> simp

theorem decodeOptionU64_err {b : List Nat} (h : b.length < 12) :
    decodeOptionU64 b = .error .unexpectedEOF := by
  by_cases h4 : b.length < 4
  · simp [decodeOptionU64, readUintLE_err h4]
  · have h4' : (4 : Nat) ≤ b.length := by omega
    have h8 : (b.drop 4).length < 8 := by simp [List.length_drop]; omega
    simp [decodeOptionU64, readUintLE_ok h4', readUintLE_err h8]

theorem publicKeyFromBytes_val {l : List Nat} (h : l.length = 32) :
    (publicKeyFromBytes l).val = l := by
  simp only [publicKeyFromBytes]
  rw [List.take_append_of_le_length (by omega), List.take_of_length_le (by omega)]

theorem rt_bytes {n : Nat} {b k rest : List Nat} (h : readNBytes n b = .ok (k, rest)) :
    k ++ rest = b ∧ rest = b.drop n ∧ k = b.take n ∧ n ≤ b.length := by
  by_cases hn : n ≤ b.length
  · rw [readNBytes_ok hn] at h
    simp only [Except.ok.injEq, Prod.mk.injEq] at h
    obtain ⟨hk, hr⟩ := h
    subst hk; subst hr
    exact ⟨List.take_append_drop n b, rfl, rfl, hn⟩
  · rw [readNBytes_err (by omega)] at h
    simp at h

theorem rt_uint {n v : Nat} {b rest : List Nat} (h : readUintLE n b = .ok (v, rest))
    (hb : ∀ x ∈ b, x < 256) :
    writeUintLE n v ++ rest = b ∧ rest = b.drop n ∧ v = leVal (b.take n) ∧ n ≤ b.length := by
  by_cases hn : n ≤ b.length
  · rw [readUintLE_ok hn] at h
    simp only [Except.ok.injEq, Prod.mk.injEq] at h
    obtain ⟨hv, hr⟩ := h
    subst hv; subst hr
    have hlen : (b.take n).length = n := by simp [List.length_take]; omega
    have hsub : ∀ x ∈ b.take n, x < 256 := fun x hx => hb x (List.take_subset n b hx)
    have : writeUintLE n (leVal (b.take n)) = b.take n := by
      have := leBytes_leVal (b.take n) hsub
      rw [hlen] at this
      simpa [writeUintLE] using this
    rw [this]
    exact ⟨List.take_append_drop n b, rfl, rfl, hn⟩
  · rw [readUintLE_err (by omega)] at h
    simp at h

theorem rt_bool {b rest : List Nat} {v : Bool} (h : readBool b = .ok (v, rest))
    (hc : canonBool b) :
    writeBool v ++ rest = b ∧ rest = b.drop 1 := by
  by_cases hn : 1 ≤ b.length
  · rw [readBool_ok hn] at h
    simp only [Except.ok.injEq, Prod.mk.injEq] at h
    obtain ⟨hv, hr⟩ := h
    subst hv; subst hr
    rcases hc with hc | hc
    · have : writeBool (decide (leVal (b.take 1) ≠ 0)) = b.take 1 := by
        rw [hc]; simp [writeBool, leVal]
      rw [this]
      exact ⟨List.take_append_drop 1 b, rfl⟩
    · have : writeBool (decide (leVal (b.take 1) ≠ 0)) = b.take 1 := by
        rw [hc]; simp [writeBool, leVal]
      rw [this]
      exact ⟨List.take_append_drop 1 b, rfl⟩
  · rw [readBool_err (by omega)] at h
    simp at h

theorem rt_optKey {b rest : List Nat} {o : Option PubKey}
    (h : decodeOptionKey b = .ok (o, rest)) (hb : ∀ x ∈ b, x < 256)
    (hc : canonOpt b 32) :
    encodeOptionKey o ++ rest = b ∧ rest = b.drop 36 := by
  by_cases hn : 36 ≤ b.length
  · rw [decodeOptionKey_ok hn] at h
    simp only [Except.ok.injEq, Prod.mk.injEq] at h
    obtain ⟨ho, hr⟩ := h
    subst hr
    have hflag : writeUintLE 4 (leVal (b.take 4)) = b.take 4 := by
      have hlen : (b.take 4).length = 4 := by simp [List.length_take]; omega
      have hsub : ∀ x ∈ b.take 4, x < 256 := fun x hx => hb x (List.take_subset 4 b hx)
      have := leBytes_leVal (b.take 4) hsub
      rw [hlen] at this
      simpa [writeUintLE] using this
    have hpay : ((b.drop 4).take 32).length = 32 := by
      simp [List.length_take, List.length_drop]; omega
    have hasm : b.take 4 ++ ((b.drop 4).take 32 ++ b.drop 36) = b := by
      have h1 : (b.drop 4).drop 32 = b.drop 36 := by rw [List.drop_drop]
      rw [← h1, List.take_append_drop, List.take_append_drop]
    by_cases hv : leVal (b.take 4) = 1
    · rw [if_pos hv] at ho
      subst ho
      simp only [encodeOptionKey, writeBytes, publicKeyFromBytes_val hpay]
      have hflag1 : writeUintLE 4 1 = b.take 4 := hv ▸ hflag
      refine ⟨?_, trivial⟩
      rw [List.append_assoc, hflag1]
      exact hasm
    · rw [if_neg hv] at ho
      subst ho
      rcases hc with hc | hc
      · exact absurd hc hv
      · obtain ⟨hc0, hcz⟩ := hc
        simp only [encodeOptionKey, writeBytes]
        have hflag0 : writeUintLE 4 0 = b.take 4 := hc0 ▸ hflag
        refine ⟨?_, trivial⟩
        rw [List.append_assoc, hflag0, ← hcz]
        exact hasm
  · rw [decodeOptionKey_err (by omega)] at h
    simp at h

theorem rt_optU64 {b rest : List Nat} {o : Option Nat}
    (h : decodeOptionU64 b = .ok (o, rest)) (hb : ∀ x ∈ b, x < 256)
    (hc : canonOpt b 8) :
    encodeOptionU64 o ++ rest = b ∧ rest = b.drop 12 := by
  by_cases hn : 12 ≤ b.length
  · rw [decodeOptionU64_ok hn] at h
    simp only [Except.ok.injEq, Prod.mk.injEq] at h
    obtain ⟨ho, hr⟩ := h
    subst hr
    have hflag : writeUintLE 4 (leVal (b.take 4)) = b.take 4 := by
      have hlen : (b.take 4).length = 4 := by simp [List.length_take]; omega
      have hsub : ∀ x ∈ b.take 4, x < 256 := fun x hx => hb x (List.take_subset 4 b hx)
      have := leBytes_leVal (b.take 4) hsub
      rw [hlen] at this
      simpa [writeUintLE] using this
    have hpay : writeUintLE 8 (leVal ((b.drop 4).take 8)) = (b.drop 4).take 8 := by
      have hlen : ((b.drop 4).take 8).length = 8 := by
        simp [List.length_take, List.length_drop]; omega
      have hsub : ∀ x ∈ (b.drop 4).take 8, x < 256 :=
        fun x hx => hb x (List.drop_subset 4 b (List.take_subset 8 (b.drop 4) hx))
      have := leBytes_leVal ((b.drop 4).take 8) hsub
      rw [hlen] at this
      simpa [writeUintLE] using this
    have hasm : b.take 4 ++ ((b.drop 4).take 8 ++ b.drop 12) = b := by
      have h1 : (b.drop 4).drop 8 = b.drop 12 := by rw [List.drop_drop]
      rw [← h1, List.take_append_drop, List.take_append_drop]
    by_cases hv : leVal (b.take 4) = 1
    · rw [if_pos hv] at ho
      subst ho
      simp only [encodeOptionU64]
      have hflag1 : writeUintLE 4 1 = b.take 4 := hv ▸ hflag
      refine ⟨?_, trivial⟩
      rw [List.append_assoc, hflag1, hpay]
      exact hasm
    · rw [if_neg hv] at ho
      subst ho
      rcases hc with hc | hc
      · exact absurd hc hv
      · obtain ⟨hc0, hcz⟩ := hc
        simp only [encodeOptionU64]
        have hflag0 : writeUintLE 4 0 = b.take 4 := hc0 ▸ hflag
        have hz : writeUintLE 8 0 = (b.drop 4).take 8 := by
          rw [hcz]; decide
        refine ⟨?_, trivial⟩
        rw [List.append_assoc, hflag0, hz]
        exact hasm
  · rw [decodeOptionU64_err (by omega)] at h
    simp at h

theorem readKeys_ok {k : Nat} : ∀ {b : List Nat}, 32 * k ≤ b.length →
    ∃ ks, readKeys k b = .ok (ks, b.drop (32 * k)) ∧ ks.length = k := by
  induction k with
  | zero => intro b _; exact ⟨[], by simp [readKeys], rfl⟩
  | succ k ih =>
    intro b h
    have h32 : (32 : Nat) ≤ b.length := by omega
    have hrest : 32 * k ≤ (b.drop 32).length := by simp [List.length_drop]; omega
    obtain ⟨ks, hks, hlen⟩ := ih hrest
    refine ⟨publicKeyFromBytes (b.take 32) :: ks, ?_, by simp [hlen]⟩
    have hd : (b.drop 32).drop (32 * k) = b.drop (32 * (k + 1)) := by
      rw [List.drop_drop]; congr 1; ring
    simp only [readKeys, readNBytes_ok h32, hks, hd]

theorem readKeys_err {k : Nat} : ∀ {b : List Nat}, b.length < 32 * k →
    readKeys k b = .error .unexpectedEOF := by
  induction k with
  | zero => intro b h; omega
  | succ k ih =>
    intro b h
    by_cases h32 : b.length < 32
    · simp [readKeys, readNBytes_err h32]
    · have h32' : (32 : Nat) ≤ b.length := by omega
      have hrest : (b.drop 32).length < 32 * k := by simp [List.length_drop]; omega
      simp [readKeys, readNBytes_ok h32', ih hrest]

theorem rt_keys {k : Nat} : ∀ {b rest : List Nat} {ks : List PubKey},
    readKeys k b = .ok (ks, rest) →
    writeKeys ks ++ rest = b ∧ rest = b.drop (32 * k) := by
  induction k with
  | zero =>
    intro b rest ks h
    simp only [readKeys, Except.ok.injEq, Prod.mk.injEq] at h
    obtain ⟨hks, hr⟩ := h
    subst hks; subst hr
    simp [writeKeys]
  | succ k ih =>
    intro b rest ks h
    by_cases h32 : (32 : Nat) ≤ b.length
    · cases hks : readKeys k (b.drop 32) with
      | error e => simp [readKeys, readNBytes_ok h32, hks] at h
      | ok p =>
        obtain ⟨ks', b2⟩ := p
        simp only [readKeys, readNBytes_ok h32, hks, Except.ok.injEq,
          Prod.mk.injEq] at h
        obtain ⟨hk, hr⟩ := h
        subst hk; subst hr
        obtain ⟨e1, d1⟩ := ih hks
        have hval : (publicKeyFromBytes (b.take 32)).val = b.take 32 :=
          publicKeyFromBytes_val (by simp [List.length_take]; omega)
        constructor
        · simp only [writeKeys, writeBytes, hval, List.append_assoc]
          rw [e1, List.take_append_drop]
        · rw [d1, List.drop_drop]
          congr 1
          ring
    · rw [readKeys, readNBytes_err (by omega)] at h
      simp at h

theorem mint_decode_ok {b : List Nat} (h : 82 ≤ b.length) :
    Mint.unmarshalWithDecoder b =
      .ok ({ mintAuthority :=
               if leVal (b.take 4) = 1
                 then some (publicKeyFromBytes ((b.drop 4).take 32)) else none,
             supply := leVal ((b.drop 36).take 8),
             decimals := leVal ((b.drop 44).take 1),
             isInitialized := decide (leVal ((b.drop 45).take 1) ≠ 0),
             freezeAuthority :=
               if leVal ((b.drop 46).take 4) = 1
                 then some (publicKeyFromBytes ((b.drop 50).take 32)) else none },
           b.drop 82) := by
  have e1 : decodeOptionKey b =
      .ok ((if leVal (b.take 4) = 1
              then some (publicKeyFromBytes ((b.drop 4).take 32)) else none),
           b.drop 36) := decodeOptionKey_ok (by omega)
  have l36 : (b.drop 36).length = b.length - 36 := List.length_drop 36 b
  have e2 := readUintLE_ok (n := 8) (b := b.drop 36) (by omega)
  have e3 := readUintLE_ok (n := 1) (b := b.drop 44) (by simp [List.length_drop]; omega)
  have e4 := readBool_ok (b := b.drop 45) (by simp [List.length_drop]; omega)
  have e5 : decodeOptionKey (b.drop 46) =
      .ok ((if leVal ((b.drop 46).take 4) = 1
              then some (publicKeyFromBytes (((b.drop 46).drop 4).take 32)) else none),
           (b.drop 46).drop 36) := decodeOptionKey_ok (by simp [List.length_drop]; omega)
  have d44 : (b.drop 36).drop 8 = b.drop 44 := by rw [List.drop_drop]
  have d45 : (b.drop 44).drop 1 = b.drop 45 := by rw [List.drop_drop]
  have d46 : (b.drop 45).drop 1 = b.drop 46 := by rw [List.drop_drop]
  have d50 : (b.drop 46).drop 4 = b.drop 50 := by rw [List.drop_drop]
  have d82 : (b.drop 46).drop 36 = b.drop 82 := by rw [List.drop_drop]
  rw [d44] at e2
  rw [d45] at e3
  rw [d46] at e4
  rw [d50, d82] at e5
  simp only [Mint.unmarshalWithDecoder, e1, e2, e3, e4, e5]

theorem mint_decode_err {b : List Nat} (h : b.length < 82) :
    Mint.unmarshalWithDecoder b = .error .unexpectedEOF := by
  by_cases h36 : b.length < 36
  · simp [Mint.unmarshalWithDecoder, decodeOptionKey_err h36]
  · have e1 := decodeOptionKey_ok (b := b) (by omega)
    by_cases h44 : b.length < 44
    · have e2 := readUintLE_err (n := 8) (b := b.drop 36) (by simp [List.length_drop]; omega)
      simp [Mint.unmarshalWithDecoder, e1, e2]
    · have e2 := readUintLE_ok (n := 8) (b := b.drop 36) (by simp [List.length_drop]; omega)
      have d44 : (b.drop 36).drop 8 = b.drop 44 := by rw [List.drop_drop]
      rw [d44] at e2
      by_cases h45 : b.length < 45
      · have e3 := readUintLE_err (n := 1) (b := b.drop 44) (by simp [List.length_drop]; omega)
        simp [Mint.unmarshalWithDecoder, e1, e2, e3]
      · have e3 := readUintLE_ok (n := 1) (b := b.drop 44) (by simp [List.length_drop]; omega)
        have d45 : (b.drop 44).drop 1 = b.drop 45 := by rw [List.drop_drop]
        rw [d45] at e3
        by_cases h46 : b.length < 46
        · have e4 := readBool_err (b := b.drop 45) (by simp [List.length_drop]; omega)
          simp [Mint.unmarshalWithDecoder, e1, e2, e3, e4]
        · have e4 := readBool_ok (b := b.drop 45) (by simp [List.length_drop]; omega)
          have d46 : (b.drop 45).drop 1 = b.drop 46 := by rw [List.drop_drop]
          rw [d46] at e4
          have e5 := decodeOptionKey_err (b := b.drop 46) (by simp [List.length_drop]; omega)
          simp [Mint.unmarshalWithDecoder, e1, e2, e3, e4, e5]

theorem mint_roundtrip {b rest : List Nat} {m : Mint}
    (h : Mint.unmarshalWithDecoder b = .ok (m, rest)) (hb : ∀ x ∈ b, x < 256)
    (hc1 : canonOpt b 32) (hc2 : canonBool (b.drop 45))
    (hc3 : canonOpt (b.drop 46) 32) :
    Mint.marshalWithEncoder m ++ rest = b := by
  cases h1 : decodeOptionKey b with
  | error e => simp [Mint.unmarshalWithDecoder, h1] at h
  | ok p1 =>
    obtain ⟨ma, b1⟩ := p1
    cases h2 : readUintLE 8 b1 with
    | error e => simp [Mint.unmarshalWithDecoder, h1, h2] at h
    | ok p2 =>
      obtain ⟨supply, b2⟩ := p2
      cases h3 : readUintLE 1 b2 with
      | error e => simp [Mint.unmarshalWithDecoder, h1, h2, h3] at h
      | ok p3 =>
        obtain ⟨dec, b3⟩ := p3
        cases h4 : readBool b3 with
        | error e => simp [Mint.unmarshalWithDecoder, h1, h2, h3, h4] at h
        | ok p4 =>
          obtain ⟨ini, b4⟩ := p4
          cases h5 : decodeOptionKey b4 with
          | error e => simp [Mint.unmarshalWithDecoder, h1, h2, h3, h4, h5] at h
          | ok p5 =>
            obtain ⟨fa, b5⟩ := p5
            simp only [Mint.unmarshalWithDecoder, h1, h2, h3, h4, h5,
              Except.ok.injEq, Prod.mk.injEq] at h
            obtain ⟨hm, hr⟩ := h
            subst hm; subst hr
            obtain ⟨e1, d1⟩ := rt_optKey h1 hb hc1
            have hb1 : ∀ x ∈ b1, x < 256 := by
              subst d1; exact fun x hx => hb x (List.drop_subset 36 b hx)
            obtain ⟨e2, d2, _, _⟩ := rt_uint h2 hb1
            have db2 : b2 = b.drop 44 := by
              rw [d2, d1, List.drop_drop]
            have hb2 : ∀ x ∈ b2, x < 256 := by
              subst db2; exact fun x hx => hb x (List.drop_subset 44 b hx)
            obtain ⟨e3, d3, _, _⟩ := rt_uint h3 hb2
            have db3 : b3 = b.drop 45 := by
              rw [d3, db2, List.drop_drop]
            obtain ⟨e4, d4⟩ := rt_bool h4 (db3 ▸ hc2)
            have db4 : b4 = b.drop 46 := by
              rw [d4, db3, List.drop_drop]
            have hb4 : ∀ x ∈ b4, x < 256 := by
              subst db4; exact fun x hx => hb x (List.drop_subset 46 b hx)
            obtain ⟨e5, _⟩ := rt_optKey h5 hb4 (db4 ▸ hc3)
            simp only [Mint.marshalWithEncoder, List.append_assoc]
            rw [e5, e4, e3, e2, e1]

theorem account_decode_ok {b : List Nat} (h : 165 ≤ b.length) :
    Account.unmarshalWithDecoder b =
      .ok ({ mint := publicKeyFromBytes (b.take 32),
             owner := publicKeyFromBytes ((b.drop 32).take 32),
             amount := leVal ((b.drop 64).take 8),
             delegate :=
               if leVal ((b.drop 72).take 4) = 1
                 then some (publicKeyFromBytes ((b.drop 76).take 32)) else none,
             state := leVal ((b.drop 108).take 1),
             isNative :=
               if leVal ((b.drop 109).take 4) = 1
                 then some (leVal ((b.drop 113).take 8)) else none,
             delegatedAmount := leVal ((b.drop 121).take 8),
             closeAuthority :=
               if leVal ((b.drop 129).take 4) = 1
                 then some (publicKeyFromBytes ((b.drop 133).take 32)) else none },
           b.drop 165) := by
  have e1 := readNBytes_ok (n := 32) (b := b) (by omega)
  have e2 := readNBytes_ok (n := 32) (b := b.drop 32) (by simp [List.length_drop]; omega)
  have e3 := readUintLE_ok (n := 8) (b := b.drop 64) (by simp [List.length_drop]; omega)
  have e4 := decodeOptionKey_ok (b := b.drop 72) (by simp [List.length_drop]; omega)
  have e5 := readUintLE_ok (n := 1) (b := b.drop 108) (by simp [List.length_drop]; omega)
  have e6 := decodeOptionU64_ok (b := b.drop 109) (by simp [List.length_drop]; omega)
  have e7 := readUintLE_ok (n := 8) (b := b.drop 121) (by simp [List.length_drop]; omega)
  have e8 := decodeOptionKey_ok (b := b.drop 129) (by simp [List.length_drop]; omega)
  have d64 : (b.drop 32).drop 32 = b.drop 64 := by rw [List.drop_drop]
  have d72 : (b.drop 64).drop 8 = b.drop 72 := by rw [List.drop_drop]
  have d76 : (b.drop 72).drop 4 = b.drop 76 := by rw [List.drop_drop]
  have d108 : (b.drop 72).drop 36 = b.drop 108 := by rw [List.drop_drop]
  have d109 : (b.drop 108).drop 1 = b.drop 109 := by rw [List.drop_drop]
  have d113 : (b.drop 109).drop 4 = b.drop 113 := by rw [List.drop_drop]
  have d121 : (b.drop 109).drop 12 = b.drop 121 := by rw [List.drop_drop]
  have d129 : (b.drop 121).drop 8 = b.drop 129 := by rw [List.drop_drop]
  have d133 : (b.drop 129).drop 4 = b.drop 133 := by rw [List.drop_drop]
  have d165 : (b.drop 129).drop 36 = b.drop 165 := by rw [List.drop_drop]
  rw [d64] at e2
  rw [d72] at e3
  rw [d76, d108] at e4
  rw [d109] at e5
  rw [d113, d121] at e6
  rw [d129] at e7
  rw [d133, d165] at e8
  simp only [Account.unmarshalWithDecoder, e1, e2, e3, e4, e5, e6, e7, e8]

theorem account_decode_err {b : List Nat} (h : b.length < 165) :
    Account.unmarshalWithDecoder b = .error .unexpectedEOF := by
  by_cases h32 : b.length < 32
  · simp [Account.unmarshalWithDecoder, readNBytes_err h32]
  · have e1 := readNBytes_ok (n := 32) (b := b) (by omega)
    by_cases h64 : b.length < 64
    · have e2 := readNBytes_err (n := 32) (b := b.drop 32) (by simp [List.length_drop]; omega)
      simp [Account.unmarshalWithDecoder, e1, e2]
    · have e2 := readNBytes_ok (n := 32) (b := b.drop 32) (by simp [List.length_drop]; omega)
      have d64 : (b.drop 32).drop 32 = b.drop 64 := by rw [List.drop_drop]
      rw [d64] at e2
      by_cases h72 : b.length < 72
      · have e3 := readUintLE_err (n := 8) (b := b.drop 64) (by simp [List.length_drop]; omega)
        simp [Account.unmarshalWithDecoder, e1, e2, e3]
      · have e3 := readUintLE_ok (n := 8) (b := b.drop 64) (by simp [List.length_drop]; omega)
        have d72 : (b.drop 64).drop 8 = b.drop 72 := by rw [List.drop_drop]
        rw [d72] at e3
        by_cases h108 : b.length < 108
        · have e4 := decodeOptionKey_err (b := b.drop 72) (by simp [List.length_drop]; omega)
          simp [Account.unmarshalWithDecoder, e1, e2, e3, e4]
        · have e4 := decodeOptionKey_ok (b := b.drop 72) (by simp [List.length_drop]; omega)
          have d108 : (b.drop 72).drop 36 = b.drop 108 := by rw [List.drop_drop]
          rw [d108] at e4
          by_cases h109 : b.length < 109
          · have e5 := readUintLE_err (n := 1) (b := b.drop 108) (by simp [List.length_drop]; omega)
            simp [Account.unmarshalWithDecoder, e1, e2, e3, e4, e5]
          · have e5 := readUintLE_ok (n := 1) (b := b.drop 108) (by simp [List.length_drop]; omega)
            have d109 : (b.drop 108).drop 1 = b.drop 109 := by rw [List.drop_drop]
            rw [d109] at e5
            by_cases h121 : b.length < 121
            · have e6 := decodeOptionU64_err (b := b.drop 109) (by simp [List.length_drop]; omega)
              simp [Account.unmarshalWithDecoder, e1, e2, e3, e4, e5, e6]
            · have e6 := decodeOptionU64_ok (b := b.drop 109) (by simp [List.length_drop]; omega)
              have d121 : (b.drop 109).drop 12 = b.drop 121 := by rw [List.drop_drop]
              rw [d121] at e6
              by_cases h129 : b.length < 129
              · have e7 := readUintLE_err (n := 8) (b := b.drop 121) (by simp [List.length_drop]; omega)
                simp [Account.unmarshalWithDecoder, e1, e2, e3, e4, e5, e6, e7]
              · have e7 := readUintLE_ok (n := 8) (b := b.drop 121) (by simp [List.length_drop]; omega)
                have d129 : (b.drop 121).drop 8 = b.drop 129 := by rw [List.drop_drop]
                rw [d129] at e7
                have e8 := decodeOptionKey_err (b := b.drop 129) (by simp [List.length_drop]; omega)
                simp [Account.unmarshalWithDecoder, e1, e2, e3, e4, e5, e6, e7, e8]

theorem account_roundtrip {b rest : List Nat} {a : Account}
    (h : Account.unmarshalWithDecoder b = .ok (a, rest)) (hb : ∀ x ∈ b, x < 256)
    (hc1 : canonOpt (b.drop 72) 32) (hc2 : canonOpt (b.drop 109) 8)
    (hc3 : canonOpt (b.drop 129) 32) :
    Account.marshalWithEncoder a ++ rest = b := by
  cases h1 : readNBytes 32 b with
  | error e => simp [Account.unmarshalWithDecoder, h1] at h
  | ok p1 =>
    obtain ⟨mintBytes, b1⟩ := p1
    cases h2 : readNBytes 32 b1 with
    | error e => simp [Account.unmarshalWithDecoder, h1, h2] at h
    | ok p2 =>
      obtain ⟨ownerBytes, b2⟩ := p2
      cases h3 : readUintLE 8 b2 with
      | error e => simp [Account.unmarshalWithDecoder, h1, h2, h3] at h
      | ok p3 =>
        obtain ⟨amount, b3⟩ := p3
        cases h4 : decodeOptionKey b3 with
        | error e => simp [Account.unmarshalWithDecoder, h1, h2, h3, h4] at h
        | ok p4 =>
          obtain ⟨dl, b4⟩ := p4
          cases h5 : readUintLE 1 b4 with
          | error e => simp [Account.unmarshalWithDecoder, h1, h2, h3, h4, h5] at h
          | ok p5 =>
            obtain ⟨st, b5⟩ := p5
            cases h6 : decodeOptionU64 b5 with
            | error e => simp [Account.unmarshalWithDecoder, h1, h2, h3, h4, h5, h6] at h
            | ok p6 =>
              obtain ⟨nat8, b6⟩ := p6
              cases h7 : readUintLE 8 b6 with
              | error e =>
                simp [Account.unmarshalWithDecoder, h1, h2, h3, h4, h5, h6, h7] at h
              | ok p7 =>
                obtain ⟨damt, b7⟩ := p7
                cases h8 : decodeOptionKey b7 with
                | error e =>
                  simp [Account.unmarshalWithDecoder, h1, h2, h3, h4, h5, h6, h7, h8] at h
                | ok p8 =>
                  obtain ⟨ca, b8⟩ := p8
                  simp only [Account.unmarshalWithDecoder, h1, h2, h3, h4, h5, h6, h7,
                    h8, Except.ok.injEq, Prod.mk.injEq] at h
                  obtain ⟨ha, hr⟩ := h
                  subst ha; subst hr
                  obtain ⟨e1, d1, t1, l1⟩ := rt_bytes h1
                  have hb1 : ∀ x ∈ b1, x < 256 := by
                    subst d1; exact fun x hx => hb x (List.drop_subset 32 b hx)
                  obtain ⟨e2, d2, t2, l2⟩ := rt_bytes h2
                  have db2 : b2 = b.drop 64 := by rw [d2, d1, List.drop_drop]
                  have hb2 : ∀ x ∈ b2, x < 256 := by
                    subst db2; exact fun x hx => hb x (List.drop_subset 64 b hx)
                  obtain ⟨e3, d3, _, _⟩ := rt_uint h3 hb2
                  have db3 : b3 = b.drop 72 := by rw [d3, db2, List.drop_drop]
                  have hb3 : ∀ x ∈ b3, x < 256 := by
                    subst db3; exact fun x hx => hb x (List.drop_subset 72 b hx)
                  obtain ⟨e4, d4⟩ := rt_optKey h4 hb3 (db3 ▸ hc1)
                  have db4 : b4 = b.drop 108 := by rw [d4, db3, List.drop_drop]
                  have hb4 : ∀ x ∈ b4, x < 256 := by
                    subst db4; exact fun x hx => hb x (List.drop_subset 108 b hx)
                  obtain ⟨e5, d5, _, _⟩ := rt_uint h5 hb4
                  have db5 : b5 = b.drop 109 := by rw [d5, db4, List.drop_drop]
                  have hb5 : ∀ x ∈ b5, x < 256 := by
                    subst db5; exact fun x hx => hb x (List.drop_subset 109 b hx)
                  obtain ⟨e6, d6⟩ := rt_optU64 h6 hb5 (db5 ▸ hc2)
                  have db6 : b6 = b.drop 121 := by rw [d6, db5, List.drop_drop]
                  have hb6 : ∀ x ∈ b6, x < 256 := by
                    subst db6; exact fun x hx => hb x (List.drop_subset 121 b hx)
                  obtain ⟨e7, d7, _, _⟩ := rt_uint h7 hb6
                  have db7 : b7 = b.drop 129 := by rw [d7, db6, List.drop_drop]
                  have hb7 : ∀ x ∈ b7, x < 256 := by
                    subst db7; exact fun x hx => hb x (List.drop_subset 129 b hx)
                  obtain ⟨e8, _⟩ := rt_optKey h8 hb7 (db7 ▸ hc3)
                  have hmv : (publicKeyFromBytes mintBytes).val = mintBytes :=
                    publicKeyFromBytes_val (by rw [t1]; simp [List.length_take]; omega)
                  have hov : (publicKeyFromBytes ownerBytes).val = ownerBytes := by
                    refine publicKeyFromBytes_val ?_
                    rw [t2]
                    simp [List.length_take]
                    omega
                  simp only [Account.marshalWithEncoder, writeBytes, hmv, hov,
                    List.append_assoc]
                  rw [e8, e7, e6, e5, e4, e3, e2, e1]

theorem msig_decode_ok {maxSigners : Nat} {b : List Nat}
    (h : 3 + 32 * maxSigners ≤ b.length) :
    ∃ ms, Multisig.unmarshalWithDecoder maxSigners b =
        .ok (ms, b.drop (3 + 32 * maxSigners)) ∧ ms.signers.length = maxSigners := by
  have e1 := readUintLE_ok (n := 1) (b := b) (by omega)
  have e2 := readUintLE_ok (n := 1) (b := b.drop 1) (by simp [List.length_drop]; omega)
  have e3 := readBool_ok (b := b.drop 2) (by simp [List.length_drop]; omega)
  have d2 : (b.drop 1).drop 1 = b.drop 2 := by rw [List.drop_drop]
  have d3 : (b.drop 2).drop 1 = b.drop 3 := by rw [List.drop_drop]
  rw [d2] at e2
  rw [d3] at e3
  obtain ⟨ks, hks, hlen⟩ :=
    readKeys_ok (k := maxSigners) (b := b.drop 3) (by simp [List.length_drop]; omega)
  have dfin : (b.drop 3).drop (32 * maxSigners) = b.drop (3 + 32 * maxSigners) := by
    rw [List.drop_drop, Nat.add_comm]
  rw [dfin] at hks
  refine ⟨{ m := leVal (b.take 1), n := leVal ((b.drop 1).take 1),
            isInitialized := decide (leVal ((b.drop 2).take 1) ≠ 0),
            signers := ks }, ?_, hlen⟩
  simp only [Multisig.unmarshalWithDecoder, e1, e2, e3, hks]

theorem msig_decode_err {maxSigners : Nat} {b : List Nat}
    (h : b.length < 3 + 32 * maxSigners) :
    Multisig.unmarshalWithDecoder maxSigners b = .error .unexpectedEOF := by
  by_cases h1 : b.length < 1
  · simp only [Multisig.unmarshalWithDecoder, readUintLE_err (n := 1) h1]
  · have e1 := readUintLE_ok (n := 1) (b := b) (by omega)
    by_cases h2 : b.length < 2
    · have e2 := readUintLE_err (n := 1) (b := b.drop 1) (by simp [List.length_drop]; omega)
      simp only [Multisig.unmarshalWithDecoder, e1, e2]
    · have e2 := readUintLE_ok (n := 1) (b := b.drop 1) (by simp [List.length_drop]; omega)
      have d2 : (b.drop 1).drop 1 = b.drop 2 := by rw [List.drop_drop]
      rw [d2] at e2
      by_cases h3 : b.length < 3
      · have e3 := readBool_err (b := b.drop 2) (by simp [List.length_drop]; omega)
        simp only [Multisig.unmarshalWithDecoder, e1, e2, e3]
      · have e3 := readBool_ok (b := b.drop 2) (by simp [List.length_drop]; omega)
        have d3 : (b.drop 2).drop 1 = b.drop 3 := by rw [List.drop_drop]
        rw [d3] at e3
        have e4 := readKeys_err (k := maxSigners) (b := b.drop 3)
          (by simp [List.length_drop]; omega)
        simp only [Multisig.unmarshalWithDecoder, e1, e2, e3, e4]

theorem msig_roundtrip {maxSigners : Nat} {b rest : List Nat} {ms : Multisig}
    (h : Multisig.unmarshalWithDecoder maxSigners b = .ok (ms, rest))
    (hb : ∀ x ∈ b, x < 256) (hc : canonBool (b.drop 2)) :
    Multisig.marshalWithEncoder ms ++ rest = b := by
  cases h1 : readUintLE 1 b with
  | error e => simp [Multisig.unmarshalWithDecoder, h1] at h
  | ok p1 =>
    obtain ⟨mv, b1⟩ := p1
    cases h2 : readUintLE 1 b1 with
    | error e => simp [Multisig.unmarshalWithDecoder, h1, h2] at h
    | ok p2 =>
      obtain ⟨nv, b2⟩ := p2
      cases h3 : readBool b2 with
      | error e => simp [Multisig.unmarshalWithDecoder, h1, h2, h3] at h
      | ok p3 =>
        obtain ⟨ini, b3⟩ := p3
        cases h4 : readKeys maxSigners b3 with
        | error e => simp [Multisig.unmarshalWithDecoder, h1, h2, h3, h4] at h
        | ok p4 =>
          obtain ⟨ks, b4⟩ := p4
          simp only [Multisig.unmarshalWithDecoder, h1, h2, h3, h4,
            Except.ok.injEq, Prod.mk.injEq] at h
          obtain ⟨hm, hr⟩ := h
          subst hm; subst hr
          obtain ⟨e1, d1, _, _⟩ := rt_uint h1 hb
          have hb1 : ∀ x ∈ b1, x < 256 := by
            subst d1; exact fun x hx => hb x (List.drop_subset 1 b hx)
          obtain ⟨e2, d2, _, _⟩ := rt_uint h2 hb1
          have db2 : b2 = b.drop 2 := by rw [d2, d1, List.drop_drop]
          obtain ⟨e3, d3⟩ := rt_bool h3 (db2 ▸ hc)
          obtain ⟨e4, _⟩ := rt_keys h4
          simp only [Multisig.marshalWithEncoder, List.append_assoc]
          rw [e4, e3, e2, e1]

theorem getD_set_self {α : Type} (l : List α) (i : Nat) (v d : α)
    (h : i < l.length) : (l.set i v).getD i d = v := by
  induction l generalizing i with
  | nil => simp at h
  | cons a rest ih =>
    cases i with
    | zero => simp
    | succ j =>
      simp only [List.set_cons_succ, List.getD_cons_succ]
      exact ih j (by simpa using h)

theorem getD_set_ne {α : Type} (l : List α) (i j : Nat) (v d : α)
    (h : i ≠ j) : (l.set i v).getD j d = l.getD j d := by
  induction l generalizing i j with
  | nil => simp
  | cons a rest ih =>
    cases i with
    | zero =>
      cases j with
      | zero => exact absurd rfl h
      | succ j' => simp
    | succ i' =>
      cases j with
      | zero => simp
      | succ j' =>
        simp only [List.set_cons_succ, List.getD_cons_succ]
        exact ih i' j' (by omega)

theorem firstUnset_spec {l : AccountMetaSlice} : ∀ {s i : Nat},
    firstUnset l s = some i →
    s ≤ i ∧ i - s < l.length ∧ l.getD (i - s) none = none ∧
      ∀ j < i - s, l.getD j none ≠ none := by
  induction l with
  | nil => intro s i h; simp [firstUnset] at h
  | cons a rest ih =>
    intro s i h
    cases a with
    | none =>
      simp only [firstUnset, Option.some.injEq] at h
      subst h
      refine ⟨Nat.le_refl s, ?_, ?_, ?_⟩
      · simp only [List.length_cons, Nat.sub_self]; omega
      · simp
      · intro j hj; omega
    | some m =>
      simp only [firstUnset] at h
      obtain ⟨hs, hlt, hget, hall⟩ := ih h
      have his : s < i := by omega
      refine ⟨by omega, by simp only [List.length_cons]; omega, ?_, ?_⟩
      · have : i - s = (i - (s + 1)) + 1 := by omega
        rw [this]
        simpa using hget
      · intro j hj
        cases j with
        | zero => simp
        | succ j' =>
          have : j' < i - (s + 1) := by omega
          simpa using hall j' this

theorem leBytes_length (n v : Nat) : (leBytes n v).length = n := by
  induction n generalizing v with
  | zero => rfl
  | succ k ih => simp [leBytes, ih]

theorem getD_some_lt {l : List (Option AccountMeta)} {i : Nat} {a : AccountMeta}
    (h : l.getD i none = some a) : i < l.length := by
  by_contra hge
  rw [List.getD_eq_default] at h
  · exact Option.noConfusion h
  · omega

theorem ci_deriveStep_some (derive : DeriveFn) (ataProgID : PubKey)
    (inst : CreateIdempotent)
    (h : (∃ a, inst.accounts.getD 1 none = some a ∧ a.publicKey ≠ zeroKey) ∨
         (inst.getWallet ≠ none ∧ inst.getMint ≠ none ∧
           inst.getTokenProgramID ≠ none)) :
    ∃ inst2, inst.deriveStep derive ataProgID = some inst2 := by
  rcases h with ⟨a, ha, hz⟩ | ⟨hw, hm, hp⟩
  · refine ⟨inst, ?_⟩
    unfold CreateIdempotent.deriveStep
    simp only [ha]
    rw [if_neg hz]
  · obtain ⟨w, hw'⟩ := Option.ne_none_iff_exists'.mp hw
    obtain ⟨m, hm'⟩ := Option.ne_none_iff_exists'.mp hm
    obtain ⟨p, hp'⟩ := Option.ne_none_iff_exists'.mp hp
    have hda : inst.deriveAta derive ataProgID =
        some (inst.setAssociatedTokenAccount
          (findAssociatedTokenAddress derive ataProgID w.publicKey m.publicKey
            p.publicKey).1) := by
      unfold CreateIdempotent.deriveAta
      simp only [hw', hm', hp']
    cases hg : inst.accounts.getD 1 none with
    | none =>
      refine ⟨inst.setAssociatedTokenAccount
        (findAssociatedTokenAddress derive ataProgID w.publicKey m.publicKey
          p.publicKey).1, ?_⟩
      unfold CreateIdempotent.deriveStep
      simp only [hg]
      exact hda
    | some a =>
      have hstep : inst.deriveStep derive ataProgID =
          if a.publicKey = zeroKey then inst.deriveAta derive ataProgID
          else some inst := by
        unfold CreateIdempotent.deriveStep
        simp only [hg]
      by_cases hz : a.publicKey = zeroKey
      · exact ⟨_, by rw [hstep, if_pos hz]; exact hda⟩
      · exact ⟨inst, by rw [hstep, if_neg hz]⟩

theorem c_deriveStep_some (derive : DeriveFn) (ataProgID : PubKey) (inst : Create)
    (h : (∃ a, inst.accounts.getD 1 none = some a ∧ a.publicKey ≠ zeroKey) ∨
         (inst.getWallet ≠ none ∧ inst.getMint ≠ none ∧
           inst.getTokenProgramID ≠ none)) :
    ∃ inst2, inst.deriveStep derive ataProgID = some inst2 := by
  rcases h with ⟨a, ha, hz⟩ | ⟨hw, hm, hp⟩
  · refine ⟨inst, ?_⟩
    unfold Create.deriveStep
    simp only [ha]
    rw [if_neg hz]
  · obtain ⟨w, hw'⟩ := Option.ne_none_iff_exists'.mp hw
    obtain ⟨m, hm'⟩ := Option.ne_none_iff_exists'.mp hm
    obtain ⟨p, hp'⟩ := Option.ne_none_iff_exists'.mp hp
    have hda : inst.deriveAta derive ataProgID =
        some (inst.setAssociatedTokenAccount
          (findAssociatedTokenAddress derive ataProgID w.publicKey m.publicKey
            p.publicKey).1) := by
      unfold Create.deriveAta
      simp only [hw', hm', hp']
    cases hg : inst.accounts.getD 1 none with
    | none =>
      refine ⟨inst.setAssociatedTokenAccount
        (findAssociatedTokenAddress derive ataProgID w.publicKey m.publicKey
          p.publicKey).1, ?_⟩
      unfold Create.deriveStep
      simp only [hg]
      exact hda
    | some a =>
      have hstep : inst.deriveStep derive ataProgID =
          if a.publicKey = zeroKey then inst.deriveAta derive ataProgID
          else some inst := by
        unfold Create.deriveStep
        simp only [hg]
      by_cases hz : a.publicKey = zeroKey
      · exact ⟨_, by rw [hstep, if_pos hz]; exact hda⟩
      · exact ⟨inst, by rw [hstep, if_neg hz]⟩

theorem ci_deriveAta_inv {derive : DeriveFn} {ataProgID : PubKey}
    {inst inst2 : CreateIdempotent}
    (h : inst.deriveAta derive ataProgID = some inst2) :
    ∃ w m p, inst.getWallet = some w ∧ inst.getMint = some m ∧
      inst.getTokenProgramID = some p ∧
      inst2 = inst.setAssociatedTokenAccount
        (findAssociatedTokenAddress derive ataProgID w.publicKey m.publicKey
          p.publicKey).1 := by
  unfold CreateIdempotent.deriveAta at h
  cases hw : inst.getWallet with
  | none => simp only [hw] at h; exact Option.noConfusion h
  | some w =>
    cases hm : inst.getMint with
    | none => simp only [hw, hm] at h; exact Option.noConfusion h
    | some m =>
      cases hp : inst.getTokenProgramID with
      | none => simp only [hw, hm, hp] at h; exact Option.noConfusion h
      | some p =>
        simp only [hw, hm, hp, Option.some.injEq] at h
        exact ⟨w, m, p, rfl, rfl, rfl, h.symm⟩

theorem c_deriveAta_inv {derive : DeriveFn} {ataProgID : PubKey}
    {inst inst2 : Create}
    (h : inst.deriveAta derive ataProgID = some inst2) :
    ∃ w m p, inst.getWallet = some w ∧ inst.getMint = some m ∧
      inst.getTokenProgramID = some p ∧
      inst2 = inst.setAssociatedTokenAccount
        (findAssociatedTokenAddress derive ataProgID w.publicKey m.publicKey
          p.publicKey).1 := by
  unfold Create.deriveAta at h
  cases hw : inst.getWallet with
  | none => simp only [hw] at h; exact Option.noConfusion h
  | some w =>
    cases hm : inst.getMint with
    | none => simp only [hw, hm] at h; exact Option.noConfusion h
    | some m =>
      cases hp : inst.getTokenProgramID with
      | none => simp only [hw, hm, hp] at h; exact Option.noConfusion h
      | some p =>
        simp only [hw, hm, hp, Option.some.injEq] at h
        exact ⟨w, m, p, rfl, rfl, rfl, h.symm⟩

theorem ci_deriveStep_inv {derive : DeriveFn} {ataProgID : PubKey}
    {inst inst2 : CreateIdempotent}
    (h : inst.deriveStep derive ataProgID = some inst2) :
    (∃ a, inst.accounts.getD 1 none = some a ∧ a.publicKey ≠ zeroKey ∧
      inst2 = inst) ∨
    (∃ w m p, inst.getWallet = some w ∧ inst.getMint = some m ∧
      inst.getTokenProgramID = some p ∧
      inst2 = inst.setAssociatedTokenAccount
        (findAssociatedTokenAddress derive ataProgID w.publicKey m.publicKey
          p.publicKey).1) := by
  unfold CreateIdempotent.deriveStep at h
  cases hg : inst.accounts.getD 1 none with
  | none =>
    simp only [hg] at h
    exact .inr (ci_deriveAta_inv h)
  | some a =>
    simp only [hg] at h
    by_cases hz : a.publicKey = zeroKey
    · rw [if_pos hz] at h
      exact .inr (ci_deriveAta_inv h)
    · rw [if_neg hz] at h
      simp only [Option.some.injEq] at h
      exact .inl ⟨a, rfl, hz, h.symm⟩

theorem c_deriveStep_inv {derive : DeriveFn} {ataProgID : PubKey}
    {inst inst2 : Create}
    (h : inst.deriveStep derive ataProgID = some inst2) :
    (∃ a, inst.accounts.getD 1 none = some a ∧ a.publicKey ≠ zeroKey ∧
      inst2 = inst) ∨
    (∃ w m p, inst.getWallet = some w ∧ inst.getMint = some m ∧
      inst.getTokenProgramID = some p ∧
      inst2 = inst.setAssociatedTokenAccount
        (findAssociatedTokenAddress derive ataProgID w.publicKey m.publicKey
          p.publicKey).1) := by
  unfold Create.deriveStep at h
  cases hg : inst.accounts.getD 1 none with
  | none =>
    simp only [hg] at h
    exact .inr (c_deriveAta_inv h)
  | some a =>
    simp only [hg] at h
    by_cases hz : a.publicKey = zeroKey
    · rw [if_pos hz] at h
      exact .inr (c_deriveAta_inv h)
    · rw [if_neg hz] at h
      simp only [Option.some.injEq] at h
      exact .inl ⟨a, rfl, hz, h.symm⟩

theorem applyOp_accounts_eq {ci : CreateIdempotent} {c : Create}
    (h : ci.accounts = c.accounts) (op : SetterOp) :
    (ci.applyOp op).accounts = (c.applyOp op).accounts := by
  cases op <;>
    simp [CreateIdempotent.applyOp, Create.applyOp,
      CreateIdempotent.setPayer, Create.setPayer,
      CreateIdempotent.setAssociatedTokenAccount, Create.setAssociatedTokenAccount,
      CreateIdempotent.setWallet, Create.setWallet,
      CreateIdempotent.setMint, Create.setMint,
      CreateIdempotent.setTokenProgramID, Create.setTokenProgramID, h]

theorem applyOps_accounts_eq (ops : List SetterOp) :
    ∀ {ci : CreateIdempotent} {c : Create}, ci.accounts = c.accounts →
      (ci.applyOps ops).accounts = (c.applyOps ops).accounts := by
  induction ops with
  | nil => intro ci c h; exact h
  | cons op rest ih =>
    intro ci c h
    simp only [CreateIdempotent.applyOps, Create.applyOps, List.foldl_cons]
    exact ih (applyOp_accounts_eq h op)

theorem deriveStep_map_eq (derive : DeriveFn) (ata : PubKey)
    {ci : CreateIdempotent} {c : Create} (h : ci.accounts = c.accounts) :
    (ci.deriveStep derive ata).map CreateIdempotent.accounts =
      (c.deriveStep derive ata).map Create.accounts := by
  have hW : ci.getWallet = c.getWallet := by
    simp [CreateIdempotent.getWallet, Create.getWallet, h]
  have hM : ci.getMint = c.getMint := by
    simp [CreateIdempotent.getMint, Create.getMint, h]
  have hP : ci.getTokenProgramID = c.getTokenProgramID := by
    simp [CreateIdempotent.getTokenProgramID, Create.getTokenProgramID, h]
  have hA : ∀ k, (ci.setAssociatedTokenAccount k).accounts =
      (c.setAssociatedTokenAccount k).accounts := by
    intro k
    simp [CreateIdempotent.setAssociatedTokenAccount,
      Create.setAssociatedTokenAccount, h]
  have hDA : (ci.deriveAta derive ata).map CreateIdempotent.accounts =
      (c.deriveAta derive ata).map Create.accounts := by
    unfold CreateIdempotent.deriveAta Create.deriveAta
    rw [hW, hM, hP]
    cases c.getWallet <;> cases c.getMint <;> cases c.getTokenProgramID <;>
      simp [hA]
  cases hg : c.accounts.getD 1 none with
  | none =>
    have h1 : ci.deriveStep derive ata = ci.deriveAta derive ata := by
      unfold CreateIdempotent.deriveStep
      rw [h]
      simp only [hg]
    have h2 : c.deriveStep derive ata = c.deriveAta derive ata := by
      unfold Create.deriveStep
      simp only [hg]
    rw [h1, h2]
    exact hDA
  | some a =>
    have h1 : ci.deriveStep derive ata =
        if a.publicKey = zeroKey then ci.deriveAta derive ata else some ci := by
      unfold CreateIdempotent.deriveStep
      rw [h]
      simp only [hg]
    have h2 : c.deriveStep derive ata =
        if a.publicKey = zeroKey then c.deriveAta derive ata else some c := by
      unfold Create.deriveStep
      simp only [hg]
    rw [h1, h2]
    by_cases hz : a.publicKey = zeroKey
    · rw [if_pos hz, if_pos hz]
      exact hDA
    · rw [if_neg hz, if_neg hz]
      simp [h]

theorem build_map_impl_eq (derive : DeriveFn) (ata : PubKey)
    {ci : CreateIdempotent} {c : Create} (h : ci.accounts = c.accounts) :
    (CreateIdempotent.build derive ata ci).map Instruction.impl =
      (Create.build derive ata c).map Instruction.impl := by
  have hds := deriveStep_map_eq derive ata h
  unfold CreateIdempotent.build Create.build
  cases hci : ci.deriveStep derive ata with
  | none =>
    cases hc : c.deriveStep derive ata with
    | none => simp
    | some y => rw [hci, hc] at hds; simp at hds
  | some x =>
    cases hc : c.deriveStep derive ata with
    | none => rw [hci, hc] at hds; simp at hds
    | some y =>
      rw [hci, hc] at hds
      have hxy : x.accounts = y.accounts := by simpa using hds
      simp [hxy]

theorem ci_validate_eq {derive : DeriveFn} {ata : PubKey}
    {inst inst2 : CreateIdempotent}
    (h : inst.deriveStep derive ata = some inst2) :
    CreateIdempotent.validate derive ata inst =
      some (inst2, firstUnset inst2.accounts 0) := by
  unfold CreateIdempotent.validate
  rw [h]
  rfl

theorem c_validate_eq {derive : DeriveFn} {ata : PubKey} {inst inst2 : Create}
    (h : inst.deriveStep derive ata = some inst2) :
    Create.validate derive ata inst =
      some (inst2, firstUnset inst2.accounts 0) := by
  unfold Create.validate
  rw [h]
  rfl

theorem ci_vab_error {derive : DeriveFn} {ata : PubKey}
    {inst inst2 : CreateIdempotent} {i : Nat}
    (h : CreateIdempotent.validate derive ata inst = some (inst2, some i)) :
    CreateIdempotent.validateAndBuild derive ata inst = some (.error i) := by
  unfold CreateIdempotent.validateAndBuild
  rw [h]

theorem c_vab_error {derive : DeriveFn} {ata : PubKey} {inst inst2 : Create}
    {i : Nat} (h : Create.validate derive ata inst = some (inst2, some i)) :
    Create.validateAndBuild derive ata inst = some (.error i) := by
  unfold Create.validateAndBuild
  rw [h]

theorem ci_vab_ok {derive : DeriveFn} {ata : PubKey}
    {inst inst2 : CreateIdempotent}
    (h : CreateIdempotent.validate derive ata inst = some (inst2, none)) :
    CreateIdempotent.validateAndBuild derive ata inst =
      (CreateIdempotent.build derive ata inst2).map Except.ok := by
  unfold CreateIdempotent.validateAndBuild
  rw [h]
  cases hb : CreateIdempotent.build derive ata inst2 <;> simp [hb]

theorem c_vab_ok {derive : DeriveFn} {ata : PubKey} {inst inst2 : Create}
    (h : Create.validate derive ata inst = some (inst2, none)) :
    Create.validateAndBuild derive ata inst =
      (Create.build derive ata inst2).map Except.ok := by
  unfold Create.validateAndBuild
  rw [h]
  cases hb : Create.build derive ata inst2 <;> simp [hb]

/-- C1 counterexample: an 82-byte Mint buffer whose mint-authority presence
flag is 2 decodes successfully (flag treated as absent), but re-encoding
writes flag 0, so encode(decode(buf)) differs from buf — the round-trip law
fails on a buffer of the exact fixed size. -/
theorem C1_counterexample :
    (match Mint.unmarshalWithDecoder (2 :: 0 :: 0 :: 0 :: List.replicate 78 0) with
      | .ok (m, _) => Mint.marshalWithEncoder m
      | .error _ => []) ≠ 2 :: 0 :: 0 :: 0 :: List.replicate 78 0 := by
  decide

/-- C1 (amended): for every byte buffer of the record's exact fixed size whose
bytes are below 256, whose optional-field presence flags are 0 or 1 with a
zero-filled payload slot when the flag is 0, and whose boolean bytes are 0 or
1, decoding then re-encoding reproduces the buffer byte for byte, for Mint
(82 bytes), Account (165 bytes) and Multisig (3 + 32·maxSigners bytes). -/
theorem C1_round_trip :
    (∀ b : List Nat, b.length = 82 → (∀ x ∈ b, x < 256) → canonOpt b 32 →
      canonBool (b.drop 45) → canonOpt (b.drop 46) 32 →
      ∃ m, Mint.unmarshalWithDecoder b = .ok (m, []) ∧
        Mint.marshalWithEncoder m = b) ∧
    (∀ b : List Nat, b.length = 165 → (∀ x ∈ b, x < 256) →
      canonOpt (b.drop 72) 32 → canonOpt (b.drop 109) 8 →
      canonOpt (b.drop 129) 32 →
      ∃ a, Account.unmarshalWithDecoder b = .ok (a, []) ∧
        Account.marshalWithEncoder a = b) ∧
    (∀ (maxSigners : Nat) (b : List Nat), b.length = 3 + 32 * maxSigners →
      (∀ x ∈ b, x < 256) → canonBool (b.drop 2) →
      ∃ ms, Multisig.unmarshalWithDecoder maxSigners b = .ok (ms, []) ∧
        Multisig.marshalWithEncoder ms = b) := by
  refine ⟨?_, ?_, ?_⟩
  · intro b hlen hb hc1 hc2 hc3
    have hnil : b.drop 82 = [] := by
      apply List.drop_eq_nil_of_le
      omega
    have hdec := mint_decode_ok (b := b) (by omega)
    rw [hnil] at hdec
    refine ⟨_, hdec, ?_⟩
    have := mint_roundtrip hdec hb hc1 hc2 hc3
    simpa using this
  · intro b hlen hb hc1 hc2 hc3
    have hnil : b.drop 165 = [] := by
      apply List.drop_eq_nil_of_le
      omega
    have hdec := account_decode_ok (b := b) (by omega)
    rw [hnil] at hdec
    refine ⟨_, hdec, ?_⟩
    have := account_roundtrip hdec hb hc1 hc2 hc3
    simpa using this
  · intro maxSigners b hlen hb hc
    have hnil : b.drop (3 + 32 * maxSigners) = [] := by
      apply List.drop_eq_nil_of_le
      omega
    obtain ⟨ms, hdec, _⟩ := @msig_decode_ok maxSigners b (by omega)
    rw [hnil] at hdec
    refine ⟨ms, hdec, ?_⟩
    have := msig_roundtrip hdec hb hc
    simpa using this

/-- C1 witness: the all-zero buffers of the exact fixed sizes (with
`maxSigners` = 2 for Multisig) satisfy the hypotheses and round-trip. -/
theorem C1_round_trip_witness :
    (∃ m, Mint.unmarshalWithDecoder (List.replicate 82 0) = .ok (m, []) ∧
      Mint.marshalWithEncoder m = List.replicate 82 0) ∧
    (∃ a, Account.unmarshalWithDecoder (List.replicate 165 0) = .ok (a, []) ∧
      Account.marshalWithEncoder a = List.replicate 165 0) ∧
    (∃ ms, Multisig.unmarshalWithDecoder 2 (List.replicate 67 0) = .ok (ms, []) ∧
      Multisig.marshalWithEncoder ms = List.replicate 67 0) :=
  ⟨C1_round_trip.1 _ (by decide) (by decide) (by unfold canonOpt; decide)
     (by unfold canonBool; decide) (by unfold canonOpt; decide),
   C1_round_trip.2.1 _ (by decide) (by decide) (by unfold canonOpt; decide)
     (by unfold canonOpt; decide) (by unfold canonOpt; decide),
   C1_round_trip.2.2 2 _ (by decide) (by decide) (by unfold canonBool; decide)⟩

/-- C2 counterexample: on a freshly constructed `CreateIdempotent` builder
(wallet and mint slots still nil), `Build` dereferences the nil wallet slot
while deriving the associated address and crashes (modelled as `none`) instead
of returning a finished instruction. -/
theorem C2_counterexample :
    CreateIdempotent.build exDerive exAtaProg
      (newCreateIdempotentInstructionBuilder exKeyS exKeyT exKeyR) = none := by
  rfl

/-- C2 (amended): `build()` has no error return path and unconditionally
returns a finished instruction for every builder state in which the
associated-address slot holds a set nonzero key, or the wallet, mint and
token-program slots are all set; in the remaining states (slot 1 unset or
zero while wallet, mint or token-program is nil) it crashes with a nil
dereference (modelled `none`) rather than returning an instruction. Both
variants, both halves. -/
theorem C2_build_total :
    (∀ (derive : DeriveFn) (ataProgID : PubKey) (inst : CreateIdempotent),
      ((∃ a, inst.accounts.getD 1 none = some a ∧ a.publicKey ≠ zeroKey) ∨
        (inst.getWallet ≠ none ∧ inst.getMint ≠ none ∧
          inst.getTokenProgramID ≠ none)) →
      ∃ ins, CreateIdempotent.build derive ataProgID inst = some ins) ∧
    (∀ (derive : DeriveFn) (ataProgID : PubKey) (inst : Create),
      ((∃ a, inst.accounts.getD 1 none = some a ∧ a.publicKey ≠ zeroKey) ∨
        (inst.getWallet ≠ none ∧ inst.getMint ≠ none ∧
          inst.getTokenProgramID ≠ none)) →
      ∃ ins, Create.build derive ataProgID inst = some ins) ∧
    (∀ (derive : DeriveFn) (ataProgID : PubKey) (inst : CreateIdempotent),
      (inst.accounts.getD 1 none = none ∨
        ∃ a, inst.accounts.getD 1 none = some a ∧ a.publicKey = zeroKey) →
      (inst.getWallet = none ∨ inst.getMint = none ∨
        inst.getTokenProgramID = none) →
      CreateIdempotent.build derive ataProgID inst = none) ∧
    (∀ (derive : DeriveFn) (ataProgID : PubKey) (inst : Create),
      (inst.accounts.getD 1 none = none ∨
        ∃ a, inst.accounts.getD 1 none = some a ∧ a.publicKey = zeroKey) →
      (inst.getWallet = none ∨ inst.getMint = none ∨
        inst.getTokenProgramID = none) →
      Create.build derive ataProgID inst = none) := by
  refine ⟨?_, ?_, ?_, ?_⟩
  · intro derive ataProgID inst h
    obtain ⟨inst2, hstep⟩ := ci_deriveStep_some derive ataProgID inst h
    refine ⟨{ impl := inst2.accounts, typeID := Instruction_CreateIdempotent }, ?_⟩
    unfold CreateIdempotent.build
    rw [hstep]
    rfl
  · intro derive ataProgID inst h
    obtain ⟨inst2, hstep⟩ := c_deriveStep_some derive ataProgID inst h
    refine ⟨{ impl := inst2.accounts, typeID := Instruction_Create }, ?_⟩
    unfold Create.build
    rw [hstep]
    rfl
  · intro derive ataProgID inst htrig hnil
    have hda : inst.deriveAta derive ataProgID = none := by
      unfold CreateIdempotent.deriveAta
      cases hw : inst.getWallet with
      | none => rfl
      | some w =>
        cases hm : inst.getMint with
        | none => rfl
        | some m =>
          cases hp : inst.getTokenProgramID with
          | none => rfl
          | some p =>
            rcases hnil with h | h | h
            · rw [hw] at h; exact absurd h (by simp)
            · rw [hm] at h; exact absurd h (by simp)
            · rw [hp] at h; exact absurd h (by simp)
    have hstep : inst.deriveStep derive ataProgID =
        inst.deriveAta derive ataProgID := by
      unfold CreateIdempotent.deriveStep
      rcases htrig with hg | ⟨a, hg, hz⟩
      · simp only [hg]
      · simp only [hg]
        rw [if_pos hz]
    unfold CreateIdempotent.build
    rw [hstep, hda]
    rfl
  · intro derive ataProgID inst htrig hnil
    have hda : inst.deriveAta derive ataProgID = none := by
      unfold Create.deriveAta
      cases hw : inst.getWallet with
      | none => rfl
      | some w =>
        cases hm : inst.getMint with
        | none => rfl
        | some m =>
          cases hp : inst.getTokenProgramID with
          | none => rfl
          | some p =>
            rcases hnil with h | h | h
            · rw [hw] at h; exact absurd h (by simp)
            · rw [hm] at h; exact absurd h (by simp)
            · rw [hp] at h; exact absurd h (by simp)
    have hstep : inst.deriveStep derive ataProgID =
        inst.deriveAta derive ataProgID := by
      unfold Create.deriveStep
      rcases htrig with hg | ⟨a, hg, hz⟩
      · simp only [hg]
      · simp only [hg]
        rw [if_pos hz]
    unfold Create.build
    rw [hstep, hda]
    rfl

/-- C2 witness: a fully populated builder (payer, wallet, mint, token program
all set) satisfies the hypothesis and `Build` returns an instruction. -/
theorem C2_build_total_witness :
    ∃ ins, CreateIdempotent.build exDerive exAtaProg
      (newCreateIdempotentInstruction exKeyS exKeyT exKeyR exKeyA exKeyB exKeyC
        exKeyD) = some ins :=
  C2_build_total.1 exDerive exAtaProg _
    (.inr ⟨by decide, by decide, by decide⟩)

/-- C3: when the associated-address slot is unset or holds the zero key and
wallet, mint and token-program metas are set, `Build` writes into slot 1
exactly the first output of the external derivation function applied to the
seeds (wallet, token-program, mint) — in that order — against the fixed
owning-program id, ignoring the derivation's bump and validity outputs; for
both variants. -/
theorem C3_build_derivation :
    (∀ (derive : DeriveFn) (ataProgID : PubKey) (inst : CreateIdempotent)
      (w m p : AccountMeta),
      inst.getWallet = some w → inst.getMint = some m →
      inst.getTokenProgramID = some p →
      (inst.accounts.getD 1 none = none ∨
        ∃ a, inst.accounts.getD 1 none = some a ∧ a.publicKey = zeroKey) →
      ∃ ins, CreateIdempotent.build derive ataProgID inst = some ins ∧
        ins.impl.getD 1 none = some
          { publicKey := (derive [w.publicKey.val, p.publicKey.val,
              m.publicKey.val] ataProgID).1,
            isWritable := true, isSigner := false }) ∧
    (∀ (derive : DeriveFn) (ataProgID : PubKey) (inst : Create)
      (w m p : AccountMeta),
      inst.getWallet = some w → inst.getMint = some m →
      inst.getTokenProgramID = some p →
      (inst.accounts.getD 1 none = none ∨
        ∃ a, inst.accounts.getD 1 none = some a ∧ a.publicKey = zeroKey) →
      ∃ ins, Create.build derive ataProgID inst = some ins ∧
        ins.impl.getD 1 none = some
          { publicKey := (derive [w.publicKey.val, p.publicKey.val,
              m.publicKey.val] ataProgID).1,
            isWritable := true, isSigner := false }) := by
  constructor
  · intro derive ataProgID inst w m p hw hm hp htrig
    have hda : inst.deriveAta derive ataProgID =
        some (inst.setAssociatedTokenAccount
          (findAssociatedTokenAddress derive ataProgID w.publicKey m.publicKey
            p.publicKey).1) := by
      unfold CreateIdempotent.deriveAta
      simp only [hw, hm, hp]
    have hstep : inst.deriveStep derive ataProgID =
        inst.deriveAta derive ataProgID := by
      unfold CreateIdempotent.deriveStep
      rcases htrig with hg | ⟨a, hg, hz⟩
      · simp only [hg]
      · simp only [hg]
        rw [if_pos hz]
    have hlen : 1 < inst.accounts.length := by
      have := getD_some_lt (show inst.accounts.getD 2 none = some w from hw)
      omega
    refine ⟨⟨(inst.setAssociatedTokenAccount
      (findAssociatedTokenAddress derive ataProgID w.publicKey m.publicKey
        p.publicKey).1).accounts, Instruction_CreateIdempotent⟩, ?_, ?_⟩
    · unfold CreateIdempotent.build
      rw [hstep, hda]
      rfl
    · show (inst.accounts.set 1 (some ((Meta (findAssociatedTokenAddress derive
        ataProgID w.publicKey m.publicKey p.publicKey).1).write))).getD 1 none = _
      rw [getD_set_self _ _ _ _ hlen]
      rfl
  · intro derive ataProgID inst w m p hw hm hp htrig
    have hda : inst.deriveAta derive ataProgID =
        some (inst.setAssociatedTokenAccount
          (findAssociatedTokenAddress derive ataProgID w.publicKey m.publicKey
            p.publicKey).1) := by
      unfold Create.deriveAta
      simp only [hw, hm, hp]
    have hstep : inst.deriveStep derive ataProgID =
        inst.deriveAta derive ataProgID := by
      unfold Create.deriveStep
      rcases htrig with hg | ⟨a, hg, hz⟩
      · simp only [hg]
      · simp only [hg]
        rw [if_pos hz]
    have hlen : 1 < inst.accounts.length := by
      have := getD_some_lt (show inst.accounts.getD 2 none = some w from hw)
      omega
    refine ⟨⟨(inst.setAssociatedTokenAccount
      (findAssociatedTokenAddress derive ataProgID w.publicKey m.publicKey
        p.publicKey).1).accounts, Instruction_Create⟩, ?_, ?_⟩
    · unfold Create.build
      rw [hstep, hda]
      rfl
    · show (inst.accounts.set 1 (some ((Meta (findAssociatedTokenAddress derive
        ataProgID w.publicKey m.publicKey p.publicKey).1).write))).getD 1 none = _
      rw [getD_set_self _ _ _ _ hlen]
      rfl

/-- C3 witness: on a fully populated builder with wallet `exKeyB`, mint
`exKeyC` and token program `exKeyD`, the built slot 1 is the derived address
for seeds (wallet, token program, mint). -/
theorem C3_build_derivation_witness :
    ∃ ins, CreateIdempotent.build exDerive exAtaProg
      (newCreateIdempotentInstruction exKeyS exKeyT exKeyR exKeyA exKeyB exKeyC
        exKeyD) = some ins ∧
      ins.impl.getD 1 none = some
        { publicKey := (exDerive [exKeyB.val, exKeyD.val, exKeyC.val]
            exAtaProg).1,
          isWritable := true, isSigner := false } :=
  C3_build_derivation.1 exDerive exAtaProg _ (Meta exKeyB) (Meta exKeyC)
    (Meta exKeyD) (by decide) (by decide) (by decide) (.inl (by decide))

/-- C4 counterexample: a builder whose only nil slot is 5 (token program) but
whose associated-address slot holds the zero key triggers the derive step,
which dereferences the nil token-program slot and crashes (modelled `none`) —
`Validate` never reports `MissingAccountRole{5}` on it, contradicting the
claim that a builder missing only the token-program slot reports index 5. -/
theorem C4_counterexample :
    CreateIdempotent.validate exDerive exAtaProg zeroAtaNoProg = none ∧
      ¬ ∃ s, CreateIdempotent.validate exDerive exAtaProg zeroAtaNoProg =
        some (s, some 5) := by
  refine ⟨rfl, ?_⟩
  rintro ⟨s, hs⟩
  rw [show CreateIdempotent.validate exDerive exAtaProg zeroAtaNoProg =
      (none : Option (CreateIdempotent × Option Nat)) from rfl] at hs
  exact Option.noConfusion hs

/-- C4 (amended): whenever the derive-if-unset step completes, `Validate`
fails with `MissingAccountRole{i}` on the first unset slot in ascending slot
order (fail-fast, not an aggregate); a builder missing only the payer slot
reports index 0; a builder missing only the token-program slot reports index
5 provided its associated-address slot holds a nonzero key (with an unset or
zero slot 1 the derive step nil-derefs the missing token-program slot and
crashes instead); `ValidateAndBuild` returns the validation error if any,
else `Build`'s result on the post-validation state. Both variants. -/
theorem C4_validate_failfast :
    (∀ (derive : DeriveFn) (ata : PubKey) (inst inst2 : CreateIdempotent)
      (i : Nat), inst.deriveStep derive ata = some inst2 →
      firstUnset inst2.accounts 0 = some i →
      CreateIdempotent.validate derive ata inst = some (inst2, some i) ∧
        inst2.accounts.getD i none = none ∧
        ∀ j < i, inst2.accounts.getD j none ≠ none) ∧
    (∀ (derive : DeriveFn) (ata : PubKey) (a1 a2 a3 a4 a5 a6 : AccountMeta),
      ∃ s2, CreateIdempotent.validate derive ata
        ⟨[none, some a1, some a2, some a3, some a4, some a5, some a6]⟩ =
        some (s2, some 0)) ∧
    (∀ (derive : DeriveFn) (ata : PubKey) (a0 a1 a2 a3 a4 a6 : AccountMeta),
      a1.publicKey ≠ zeroKey →
      CreateIdempotent.validate derive ata
        ⟨[some a0, some a1, some a2, some a3, some a4, none, some a6]⟩ =
        some (⟨[some a0, some a1, some a2, some a3, some a4, none, some a6]⟩,
          some 5)) ∧
    (∀ (derive : DeriveFn) (ata : PubKey) (inst inst2 : CreateIdempotent)
      (i : Nat),
      CreateIdempotent.validate derive ata inst = some (inst2, some i) →
      CreateIdempotent.validateAndBuild derive ata inst = some (.error i)) ∧
    (∀ (derive : DeriveFn) (ata : PubKey) (inst inst2 : CreateIdempotent),
      CreateIdempotent.validate derive ata inst = some (inst2, none) →
      CreateIdempotent.validateAndBuild derive ata inst =
        (CreateIdempotent.build derive ata inst2).map Except.ok) ∧
    (∀ (derive : DeriveFn) (ata : PubKey) (inst inst2 : Create) (i : Nat),
      inst.deriveStep derive ata = some inst2 →
      firstUnset inst2.accounts 0 = some i →
      Create.validate derive ata inst = some (inst2, some i) ∧
        inst2.accounts.getD i none = none ∧
        ∀ j < i, inst2.accounts.getD j none ≠ none) ∧
    (∀ (derive : DeriveFn) (ata : PubKey) (a1 a2 a3 a4 a5 a6 : AccountMeta),
      ∃ s2, Create.validate derive ata
        ⟨[none, some a1, some a2, some a3, some a4, some a5, some a6]⟩ =
        some (s2, some 0)) ∧
    (∀ (derive : DeriveFn) (ata : PubKey) (a0 a1 a2 a3 a4 a6 : AccountMeta),
      a1.publicKey ≠ zeroKey →
      Create.validate derive ata
        ⟨[some a0, some a1, some a2, some a3, some a4, none, some a6]⟩ =
        some (⟨[some a0, some a1, some a2, some a3, some a4, none, some a6]⟩,
          some 5)) ∧
    (∀ (derive : DeriveFn) (ata : PubKey) (inst inst2 : Create) (i : Nat),
      Create.validate derive ata inst = some (inst2, some i) →
      Create.validateAndBuild derive ata inst = some (.error i)) ∧
    (∀ (derive : DeriveFn) (ata : PubKey) (inst inst2 : Create),
      Create.validate derive ata inst = some (inst2, none) →
      Create.validateAndBuild derive ata inst =
        (Create.build derive ata inst2).map Except.ok) := by
  refine ⟨?_, ?_, ?_, fun _ _ _ _ _ h => ci_vab_error h,
    fun _ _ _ _ h => ci_vab_ok h, ?_, ?_, ?_,
    fun _ _ _ _ _ h => c_vab_error h, fun _ _ _ _ h => c_vab_ok h⟩
  · intro derive ata inst inst2 i hstep hfu
    obtain ⟨_, hlt, hget, hall⟩ := firstUnset_spec hfu
    refine ⟨?_, by simpa using hget, fun j hj => by simpa using hall j (by omega)⟩
    rw [ci_validate_eq hstep, hfu]
  · intro derive ata a1 a2 a3 a4 a5 a6
    obtain ⟨inst2, hstep⟩ := ci_deriveStep_some derive ata
      ⟨[none, some a1, some a2, some a3, some a4, some a5, some a6]⟩
      (.inr ⟨by simp [CreateIdempotent.getWallet],
        by simp [CreateIdempotent.getMint],
        by simp [CreateIdempotent.getTokenProgramID]⟩)
    obtain ⟨t, ht⟩ : ∃ t, inst2.accounts = none :: t := by
      rcases ci_deriveStep_inv hstep with ⟨a, _, _, h2⟩ | ⟨w, m, p, _, _, _, h2⟩
      · subst h2; exact ⟨_, rfl⟩
      · subst h2; exact ⟨_, rfl⟩
    refine ⟨inst2, ?_⟩
    rw [ci_validate_eq hstep, ht]
    rfl
  · intro derive ata a0 a1 a2 a3 a4 a6 hz
    have hg : (⟨[some a0, some a1, some a2, some a3, some a4, none, some a6]⟩ :
        CreateIdempotent).accounts.getD 1 none = some a1 := rfl
    have hstep : CreateIdempotent.deriveStep derive ata
        ⟨[some a0, some a1, some a2, some a3, some a4, none, some a6]⟩ =
        some ⟨[some a0, some a1, some a2, some a3, some a4, none, some a6]⟩ := by
      unfold CreateIdempotent.deriveStep
      simp only [hg]
      rw [if_neg hz]
    rw [ci_validate_eq hstep]
    rfl
  · intro derive ata inst inst2 i hstep hfu
    obtain ⟨_, hlt, hget, hall⟩ := firstUnset_spec hfu
    refine ⟨?_, by simpa using hget, fun j hj => by simpa using hall j (by omega)⟩
    rw [c_validate_eq hstep, hfu]
  · intro derive ata a1 a2 a3 a4 a5 a6
    obtain ⟨inst2, hstep⟩ := c_deriveStep_some derive ata
      ⟨[none, some a1, some a2, some a3, some a4, some a5, some a6]⟩
      (.inr ⟨by simp [Create.getWallet], by simp [Create.getMint],
        by simp [Create.getTokenProgramID]⟩)
    obtain ⟨t, ht⟩ : ∃ t, inst2.accounts = none :: t := by
      rcases c_deriveStep_inv hstep with ⟨a, _, _, h2⟩ | ⟨w, m, p, _, _, _, h2⟩
      · subst h2; exact ⟨_, rfl⟩
      · subst h2; exact ⟨_, rfl⟩
    refine ⟨inst2, ?_⟩
    rw [c_validate_eq hstep, ht]
    rfl
  · intro derive ata a0 a1 a2 a3 a4 a6 hz
    have hg : (⟨[some a0, some a1, some a2, some a3, some a4, none, some a6]⟩ :
        Create).accounts.getD 1 none = some a1 := rfl
    have hstep : Create.deriveStep derive ata
        ⟨[some a0, some a1, some a2, some a3, some a4, none, some a6]⟩ =
        some ⟨[some a0, some a1, some a2, some a3, some a4, none, some a6]⟩ := by
      unfold Create.deriveStep
      simp only [hg]
      rw [if_neg hz]
    rw [c_validate_eq hstep]
    rfl

/-- C4 witness: a concrete builder missing only slot 5 whose slot 1 holds a
nonzero key reports `MissingAccountRole{5}`. -/
theorem C4_validate_failfast_witness :
    CreateIdempotent.validate exDerive exAtaProg
      ⟨[some (Meta exKeyA), some (Meta exKeyB), some (Meta exKeyC),
        some (Meta exKeyD), some (Meta exKeyS), none, some (Meta exKeyR)]⟩ =
      some (⟨[some (Meta exKeyA), some (Meta exKeyB), some (Meta exKeyC),
        some (Meta exKeyD), some (Meta exKeyS), none, some (Meta exKeyR)]⟩,
        some 5) :=
  C4_validate_failfast.2.2.1 exDerive exAtaProg (Meta exKeyA) (Meta exKeyB)
    (Meta exKeyC) (Meta exKeyD) (Meta exKeyS) (Meta exKeyR) (by decide)

/-- C5: an optional field whose 4-byte presence flag holds any value other
than 1 (hence also values other than 0, such as 2) decodes to `none` without
error, and the payload bytes are consumed — the cursor advances past the full
`4 + sizeof(T)` span; instantiated on the option helpers and on the first
optional field of the Mint and Account record decoders. -/
theorem C5_flag_legacy :
    (∀ b : List Nat, 36 ≤ b.length → leVal (b.take 4) ≠ 1 →
      decodeOptionKey b = .ok (none, b.drop 36)) ∧
    (∀ b : List Nat, 12 ≤ b.length → leVal (b.take 4) ≠ 1 →
      decodeOptionU64 b = .ok (none, b.drop 12)) ∧
    (∀ b : List Nat, 82 ≤ b.length → leVal (b.take 4) ≠ 1 →
      ∃ m rest, Mint.unmarshalWithDecoder b = .ok (m, rest) ∧
        m.mintAuthority = none) ∧
    (∀ b : List Nat, 165 ≤ b.length → leVal ((b.drop 72).take 4) ≠ 1 →
      ∃ a rest, Account.unmarshalWithDecoder b = .ok (a, rest) ∧
        a.delegate = none) := by
  refine ⟨?_, ?_, ?_, ?_⟩
  · intro b hlen hflag
    rw [decodeOptionKey_ok hlen, if_neg hflag]
  · intro b hlen hflag
    rw [decodeOptionU64_ok hlen, if_neg hflag]
  · intro b hlen hflag
    refine ⟨_, _, mint_decode_ok hlen, ?_⟩
    simp only [if_neg hflag]
  · intro b hlen hflag
    refine ⟨_, _, account_decode_ok hlen, ?_⟩
    simp only [if_neg hflag]

/-- C5 witness: a flag byte of 2 with zero payloads decodes to `none` with
full consumption, both for the helpers and inside the record decoders. -/
theorem C5_flag_legacy_witness :
    decodeOptionKey (2 :: 0 :: 0 :: 0 :: List.replicate 32 0) =
      .ok (none, (2 :: 0 :: 0 :: 0 :: List.replicate 32 0).drop 36) ∧
    decodeOptionU64 (2 :: 0 :: 0 :: 0 :: List.replicate 8 0) =
      .ok (none, (2 :: 0 :: 0 :: 0 :: List.replicate 8 0).drop 12) ∧
    (∃ m rest, Mint.unmarshalWithDecoder (2 :: 0 :: 0 :: 0 :: List.replicate 78 0) =
      .ok (m, rest) ∧ m.mintAuthority = none) ∧
    (∃ a rest, Account.unmarshalWithDecoder
      (List.replicate 72 0 ++ 2 :: 0 :: 0 :: 0 :: List.replicate 89 0) =
      .ok (a, rest) ∧ a.delegate = none) :=
  ⟨C5_flag_legacy.1 _ (by decide) (by decide),
   C5_flag_legacy.2.1 _ (by decide) (by decide),
   C5_flag_legacy.2.2.1 _ (by decide) (by decide),
   C5_flag_legacy.2.2.2 _ (by decide) (by decide)⟩

/-- C6: encoding a Mint always produces exactly 82 bytes and encoding an
Account always produces exactly 165 bytes, whatever the presence of the
optional fields: an absent optional field still occupies its full
`4 + sizeof(T)` span (36 bytes for an optional key, 12 for an optional u64),
never elided. -/
theorem C6_fixed_size :
    (∀ m : Mint, (Mint.marshalWithEncoder m).length = 82) ∧
    (∀ a : Account, (Account.marshalWithEncoder a).length = 165) ∧
    (∀ o : Option PubKey, (encodeOptionKey o).length = 36) ∧
    (∀ o : Option Nat, (encodeOptionU64 o).length = 12) := by
  have hbool : ∀ v : Bool, (writeBool v).length = 1 := by
    intro v
    cases v <;> rfl
  have hkey : ∀ o : Option PubKey, (encodeOptionKey o).length = 36 := by
    intro o
    cases o with
    | none =>
      simp [encodeOptionKey, writeUintLE, writeBytes, leBytes_length]
    | some k =>
      simp [encodeOptionKey, writeUintLE, writeBytes, leBytes_length, k.property]
  have hu64 : ∀ o : Option Nat, (encodeOptionU64 o).length = 12 := by
    intro o
    cases o <;> simp [encodeOptionU64, writeUintLE, leBytes_length]
  refine ⟨?_, ?_, hkey, hu64⟩
  · intro m
    simp [Mint.marshalWithEncoder, hkey, hbool, writeUintLE, leBytes_length]
  · intro a
    simp [Account.marshalWithEncoder, hkey, hu64, writeUintLE, writeBytes,
      leBytes_length, a.mint.property, a.owner.property]

/-- C7: decoding a buffer shorter than the record's fixed wire size (82 for
Mint, 165 for Account) fails with `UnexpectedEOF` — truncation anywhere in
the span, including inside an absent optional payload slot, is covered since
the bound is on total length — while a buffer with trailing extra bytes
decodes successfully and leaves exactly the extra bytes unconsumed. -/
theorem C7_eof :
    (∀ b : List Nat, b.length < 82 →
      Mint.unmarshalWithDecoder b = .error .unexpectedEOF) ∧
    (∀ b : List Nat, 82 ≤ b.length →
      ∃ m, Mint.unmarshalWithDecoder b = .ok (m, b.drop 82)) ∧
    (∀ b : List Nat, b.length < 165 →
      Account.unmarshalWithDecoder b = .error .unexpectedEOF) ∧
    (∀ b : List Nat, 165 ≤ b.length →
      ∃ a, Account.unmarshalWithDecoder b = .ok (a, b.drop 165)) :=
  ⟨fun _ h => mint_decode_err h, fun _ h => ⟨_, mint_decode_ok h⟩,
   fun _ h => account_decode_err h, fun _ h => ⟨_, account_decode_ok h⟩⟩

/-- C7 witness: buffers truncated by one byte fail with `UnexpectedEOF`;
buffers with one trailing byte succeed and leave it unconsumed. -/
theorem C7_eof_witness :
    Mint.unmarshalWithDecoder (List.replicate 81 0) = .error .unexpectedEOF ∧
    (∃ m, Mint.unmarshalWithDecoder (List.replicate 83 0) =
      .ok (m, (List.replicate 83 0).drop 82)) ∧
    Account.unmarshalWithDecoder (List.replicate 164 0) = .error .unexpectedEOF ∧
    (∃ a, Account.unmarshalWithDecoder (List.replicate 166 0) =
      .ok (a, (List.replicate 166 0).drop 165)) :=
  ⟨C7_eof.1 _ (by decide), C7_eof.2.1 _ (by decide),
   C7_eof.2.2.1 _ (by decide), C7_eof.2.2.2 _ (by decide)⟩

/-- C8: starting from their constructors and applying the same setter
sequence, the two builder variants hold identical account-role lists, their
built instructions carry identical role lists (or both crash), their
parameter payloads are both empty, and only the one-byte discriminant
differs (`Instruction_CreateIdempotent` vs `Instruction_Create`). -/
theorem C8_variant_equivalence (sysProgID tokenProgID rentID ataProgID : PubKey)
    (derive : DeriveFn) (ops : List SetterOp) :
    ((CreateIdempotent.applyOps
        (newCreateIdempotentInstructionBuilder sysProgID tokenProgID rentID)
        ops).accounts =
      (Create.applyOps (newCreateInstructionBuilder sysProgID tokenProgID rentID)
        ops).accounts) ∧
    ((CreateIdempotent.build derive ataProgID
        (CreateIdempotent.applyOps
          (newCreateIdempotentInstructionBuilder sysProgID tokenProgID rentID)
          ops)).map Instruction.impl =
      (Create.build derive ataProgID
        (Create.applyOps (newCreateInstructionBuilder sysProgID tokenProgID rentID)
          ops)).map Instruction.impl) ∧
    ((CreateIdempotent.build derive ataProgID
        (CreateIdempotent.applyOps
          (newCreateIdempotentInstructionBuilder sysProgID tokenProgID rentID)
          ops)).map Instruction.typeID =
      (CreateIdempotent.build derive ataProgID
        (CreateIdempotent.applyOps
          (newCreateIdempotentInstructionBuilder sysProgID tokenProgID rentID)
          ops)).map fun _ => Instruction_CreateIdempotent) ∧
    ((Create.build derive ataProgID
        (Create.applyOps (newCreateInstructionBuilder sysProgID tokenProgID rentID)
          ops)).map Instruction.typeID =
      (Create.build derive ataProgID
        (Create.applyOps (newCreateInstructionBuilder sysProgID tokenProgID rentID)
          ops)).map fun _ => Instruction_Create) ∧
    Instruction_CreateIdempotent ≠ Instruction_Create ∧
    CreateIdempotent.marshalWithEncoder = Create.marshalWithEncoder ∧
    CreateIdempotent.marshalWithEncoder = [] := by
  have h0 : (newCreateIdempotentInstructionBuilder sysProgID tokenProgID
      rentID).accounts =
      (newCreateInstructionBuilder sysProgID tokenProgID rentID).accounts := rfl
  have h1 := applyOps_accounts_eq ops h0
  refine ⟨h1, build_map_impl_eq derive ataProgID h1, ?_, ?_, by decide, rfl, rfl⟩
  · cases hds : CreateIdempotent.deriveStep derive ataProgID
      (CreateIdempotent.applyOps
        (newCreateIdempotentInstructionBuilder sysProgID tokenProgID rentID)
        ops) <;>
      simp [CreateIdempotent.build, hds]
  · cases hds : Create.deriveStep derive ataProgID
      (Create.applyOps (newCreateInstructionBuilder sysProgID tokenProgID rentID)
        ops) <;>
      simp [Create.build, hds]

/-- C9: `Build` and `Validate` change at most slot 1 of the role list (every
other slot of the output state equals the input state), and when `Validate`
returns a missing-slot error after its derive step fired (slot 1 was unset or
zero), the derived address has already been written into slot 1 of the
post-state — validation is not atomic with respect to the builder state; all
parts for both variants. -/
theorem C9_frame :
    (∀ (derive : DeriveFn) (ata : PubKey) (inst : CreateIdempotent)
      (ins : Instruction), CreateIdempotent.build derive ata inst = some ins →
      ∀ i, i ≠ 1 → ins.impl.getD i none = inst.accounts.getD i none) ∧
    (∀ (derive : DeriveFn) (ata : PubKey) (inst inst2 : CreateIdempotent)
      (v : Option Nat),
      CreateIdempotent.validate derive ata inst = some (inst2, v) →
      ∀ i, i ≠ 1 → inst2.accounts.getD i none = inst.accounts.getD i none) ∧
    (∀ (derive : DeriveFn) (ata : PubKey) (inst inst2 : CreateIdempotent)
      (idx : Nat),
      CreateIdempotent.validate derive ata inst = some (inst2, some idx) →
      (inst.accounts.getD 1 none = none ∨
        ∃ a, inst.accounts.getD 1 none = some a ∧ a.publicKey = zeroKey) →
      ∃ w m p, inst.getWallet = some w ∧ inst.getMint = some m ∧
        inst.getTokenProgramID = some p ∧
        inst2.accounts.getD 1 none = some
          { publicKey := (findAssociatedTokenAddress derive ata w.publicKey
              m.publicKey p.publicKey).1,
            isWritable := true, isSigner := false }) ∧
    (∀ (derive : DeriveFn) (ata : PubKey) (inst : Create) (ins : Instruction),
      Create.build derive ata inst = some ins →
      ∀ i, i ≠ 1 → ins.impl.getD i none = inst.accounts.getD i none) ∧
    (∀ (derive : DeriveFn) (ata : PubKey) (inst inst2 : Create) (v : Option Nat),
      Create.validate derive ata inst = some (inst2, v) →
      ∀ i, i ≠ 1 → inst2.accounts.getD i none = inst.accounts.getD i none) ∧
    (∀ (derive : DeriveFn) (ata : PubKey) (inst inst2 : Create) (idx : Nat),
      Create.validate derive ata inst = some (inst2, some idx) →
      (inst.accounts.getD 1 none = none ∨
        ∃ a, inst.accounts.getD 1 none = some a ∧ a.publicKey = zeroKey) →
      ∃ w m p, inst.getWallet = some w ∧ inst.getMint = some m ∧
        inst.getTokenProgramID = some p ∧
        inst2.accounts.getD 1 none = some
          { publicKey := (findAssociatedTokenAddress derive ata w.publicKey
              m.publicKey p.publicKey).1,
            isWritable := true, isSigner := false }) := by
  have hciStep : ∀ (derive : DeriveFn) (ata : PubKey)
      (inst inst2 : CreateIdempotent),
      inst.deriveStep derive ata = some inst2 →
      ∀ i, i ≠ 1 → inst2.accounts.getD i none = inst.accounts.getD i none := by
    intro derive ata inst inst2 hstep i hi
    rcases ci_deriveStep_inv hstep with ⟨a, _, _, h2⟩ | ⟨w, m, p, _, _, _, h2⟩
    · rw [h2]
    · rw [h2]
      exact getD_set_ne _ _ _ _ _ (fun hcon => hi hcon.symm)
  have hcStep : ∀ (derive : DeriveFn) (ata : PubKey) (inst inst2 : Create),
      inst.deriveStep derive ata = some inst2 →
      ∀ i, i ≠ 1 → inst2.accounts.getD i none = inst.accounts.getD i none := by
    intro derive ata inst inst2 hstep i hi
    rcases c_deriveStep_inv hstep with ⟨a, _, _, h2⟩ | ⟨w, m, p, _, _, _, h2⟩
    · rw [h2]
    · rw [h2]
      exact getD_set_ne _ _ _ _ _ (fun hcon => hi hcon.symm)
  have hciVal : ∀ (derive : DeriveFn) (ata : PubKey)
      (inst inst2 : CreateIdempotent) (v : Option Nat),
      CreateIdempotent.validate derive ata inst = some (inst2, v) →
      inst.deriveStep derive ata = some inst2 := by
    intro derive ata inst inst2 v h
    unfold CreateIdempotent.validate at h
    cases hds : inst.deriveStep derive ata with
    | none => rw [hds] at h; simp at h
    | some x =>
      rw [hds] at h
      simp only [Option.map_some', Option.some.injEq, Prod.mk.injEq] at h
      rw [h.1]
  have hcVal : ∀ (derive : DeriveFn) (ata : PubKey) (inst inst2 : Create)
      (v : Option Nat),
      Create.validate derive ata inst = some (inst2, v) →
      inst.deriveStep derive ata = some inst2 := by
    intro derive ata inst inst2 v h
    unfold Create.validate at h
    cases hds : inst.deriveStep derive ata with
    | none => rw [hds] at h; simp at h
    | some x =>
      rw [hds] at h
      simp only [Option.map_some', Option.some.injEq, Prod.mk.injEq] at h
      rw [h.1]
  refine ⟨?_, ?_, ?_, ?_, ?_, ?_⟩
  · intro derive ata inst ins hb i hi
    unfold CreateIdempotent.build at hb
    cases hds : inst.deriveStep derive ata with
    | none => rw [hds] at hb; simp at hb
    | some inst2 =>
      rw [hds] at hb
      simp only [Option.map_some', Option.some.injEq] at hb
      rw [← hb]
      exact hciStep derive ata inst inst2 hds i hi
  · intro derive ata inst inst2 v h i hi
    exact hciStep derive ata inst inst2 (hciVal derive ata inst inst2 v h) i hi
  · intro derive ata inst inst2 idx h htrig
    have hstep := hciVal derive ata inst inst2 (some idx) h
    rcases ci_deriveStep_inv hstep with ⟨a, hg, hz, _⟩ | ⟨w, m, p, hw, hm, hp, h2⟩
    · rcases htrig with htr | ⟨a', ha', hz'⟩
      · rw [htr] at hg; exact absurd hg (by simp)
      · rw [ha'] at hg
        simp only [Option.some.injEq] at hg
        exact absurd (hg ▸ hz') hz
    · refine ⟨w, m, p, hw, hm, hp, ?_⟩
      rw [h2]
      have hlen : 1 < inst.accounts.length := by
        have := getD_some_lt (show inst.accounts.getD 2 none = some w from hw)
        omega
      show (inst.accounts.set 1 _).getD 1 none = _
      rw [getD_set_self _ _ _ _ hlen]
      rfl
  · intro derive ata inst ins hb i hi
    unfold Create.build at hb
    cases hds : inst.deriveStep derive ata with
    | none => rw [hds] at hb; simp at hb
    | some inst2 =>
      rw [hds] at hb
      simp only [Option.map_some', Option.some.injEq] at hb
      rw [← hb]
      exact hcStep derive ata inst inst2 hds i hi
  · intro derive ata inst inst2 v h i hi
    exact hcStep derive ata inst inst2 (hcVal derive ata inst inst2 v h) i hi
  · intro derive ata inst inst2 idx h htrig
    have hstep := hcVal derive ata inst inst2 (some idx) h
    rcases c_deriveStep_inv hstep with ⟨a, hg, hz, _⟩ | ⟨w, m, p, hw, hm, hp, h2⟩
    · rcases htrig with htr | ⟨a', ha', hz'⟩
      · rw [htr] at hg; exact absurd hg (by simp)
      · rw [ha'] at hg
        simp only [Option.some.injEq] at hg
        exact absurd (hg ▸ hz') hz
    · refine ⟨w, m, p, hw, hm, hp, ?_⟩
      rw [h2]
      have hlen : 1 < inst.accounts.length := by
        have := getD_some_lt (show inst.accounts.getD 2 none = some w from hw)
        omega
      show (inst.accounts.set 1 _).getD 1 none = _
      rw [getD_set_self _ _ _ _ hlen]
      rfl

/-- C9 witness: on a fully populated builder the validate post-state agrees
with the input state at slot 0. -/
theorem C9_frame_witness :
    ((newCreateIdempotentInstruction exKeyS exKeyT exKeyR exKeyA exKeyB exKeyC
        exKeyD).setAssociatedTokenAccount
      (findAssociatedTokenAddress exDerive exAtaProg exKeyB exKeyC
        exKeyD).1).accounts.getD 0 none =
      (newCreateIdempotentInstruction exKeyS exKeyT exKeyR exKeyA exKeyB exKeyC
        exKeyD).accounts.getD 0 none :=
  C9_frame.2.1 exDerive exAtaProg _ _ none (by rfl) 0 (by decide)

/-- C10: the constructors pre-populate slots 4, 5, 6 with the system-program,
token-program and rent-sysvar ids as read-only non-signer roles and leave
slots 0–3 unset; `SetPayer` makes slot 0 writable+signer,
`SetAssociatedTokenAccount` makes slot 1 writable non-signer, `SetWallet`,
`SetMint` and `SetTokenProgramID` make slots 2, 3, 5 read-only non-signer;
and the derive-if-unset step writes slot 1 writable non-signer. Both
variants. -/
theorem C10_role_flags (sysProgID tokenProgID rentID : PubKey) :
    ((newCreateIdempotentInstructionBuilder sysProgID tokenProgID
        rentID).accounts =
      [none, none, none, none, some (Meta sysProgID), some (Meta tokenProgID),
        some (Meta rentID)]) ∧
    ((newCreateInstructionBuilder sysProgID tokenProgID rentID).accounts =
      [none, none, none, none, some (Meta sysProgID), some (Meta tokenProgID),
        some (Meta rentID)]) ∧
    (∀ (inst : CreateIdempotent) (k : PubKey), inst.accounts.length = 7 →
      (inst.setPayer k).accounts.getD 0 none =
        some ⟨k, true, true⟩ ∧
      (inst.setAssociatedTokenAccount k).accounts.getD 1 none =
        some ⟨k, true, false⟩ ∧
      (inst.setWallet k).accounts.getD 2 none = some ⟨k, false, false⟩ ∧
      (inst.setMint k).accounts.getD 3 none = some ⟨k, false, false⟩ ∧
      (inst.setTokenProgramID k).accounts.getD 5 none =
        some ⟨k, false, false⟩) ∧
    (∀ (inst : Create) (k : PubKey), inst.accounts.length = 7 →
      (inst.setPayer k).accounts.getD 0 none = some ⟨k, true, true⟩ ∧
      (inst.setAssociatedTokenAccount k).accounts.getD 1 none =
        some ⟨k, true, false⟩ ∧
      (inst.setWallet k).accounts.getD 2 none = some ⟨k, false, false⟩ ∧
      (inst.setMint k).accounts.getD 3 none = some ⟨k, false, false⟩ ∧
      (inst.setTokenProgramID k).accounts.getD 5 none =
        some ⟨k, false, false⟩) ∧
    (∀ (derive : DeriveFn) (ata : PubKey) (inst inst2 : CreateIdempotent)
      (w : AccountMeta), inst.getWallet = some w →
      inst.deriveStep derive ata = some inst2 → inst2 ≠ inst →
      ∃ addr, inst2.accounts.getD 1 none = some ⟨addr, true, false⟩) ∧
    (∀ (derive : DeriveFn) (ata : PubKey) (inst inst2 : Create)
      (w : AccountMeta), inst.getWallet = some w →
      inst.deriveStep derive ata = some inst2 → inst2 ≠ inst →
      ∃ addr, inst2.accounts.getD 1 none = some ⟨addr, true, false⟩) := by
  refine ⟨rfl, rfl, ?_, ?_, ?_, ?_⟩
  · intro inst k hlen
    refine ⟨?_, ?_, ?_, ?_, ?_⟩ <;>
      · first
        | exact getD_set_self _ _ _ _ (by omega)
  · intro inst k hlen
    refine ⟨?_, ?_, ?_, ?_, ?_⟩ <;>
      · first
        | exact getD_set_self _ _ _ _ (by omega)
  · intro derive ata inst inst2 w hw hstep hne
    rcases ci_deriveStep_inv hstep with ⟨a, _, _, h2⟩ | ⟨w', m, p, _, _, _, h2⟩
    · exact absurd h2 hne
    · have hlen : 1 < inst.accounts.length := by
        have := getD_some_lt (show inst.accounts.getD 2 none = some w from hw)
        omega
      refine ⟨(findAssociatedTokenAddress derive ata w'.publicKey m.publicKey
        p.publicKey).1, ?_⟩
      rw [h2]
      show (inst.accounts.set 1 _).getD 1 none = _
      rw [getD_set_self _ _ _ _ hlen]
      rfl
  · intro derive ata inst inst2 w hw hstep hne
    rcases c_deriveStep_inv hstep with ⟨a, _, _, h2⟩ | ⟨w', m, p, _, _, _, h2⟩
    · exact absurd h2 hne
    · have hlen : 1 < inst.accounts.length := by
        have := getD_some_lt (show inst.accounts.getD 2 none = some w from hw)
        omega
      refine ⟨(findAssociatedTokenAddress derive ata w'.publicKey m.publicKey
        p.publicKey).1, ?_⟩
      rw [h2]
      show (inst.accounts.set 1 _).getD 1 none = _
      rw [getD_set_self _ _ _ _ hlen]
      rfl

/-- C10 witness: the setter-flag equations instantiated on a freshly
constructed builder with a concrete key. -/
theorem C10_role_flags_witness :
    ((newCreateIdempotentInstructionBuilder exKeyS exKeyT
        exKeyR).setPayer exKeyA).accounts.getD 0 none =
      some ⟨exKeyA, true, true⟩ ∧
    ((newCreateIdempotentInstructionBuilder exKeyS exKeyT
        exKeyR).setAssociatedTokenAccount exKeyA).accounts.getD 1 none =
      some ⟨exKeyA, true, false⟩ ∧
    ((newCreateIdempotentInstructionBuilder exKeyS exKeyT
        exKeyR).setWallet exKeyA).accounts.getD 2 none =
      some ⟨exKeyA, false, false⟩ ∧
    ((newCreateIdempotentInstructionBuilder exKeyS exKeyT
        exKeyR).setMint exKeyA).accounts.getD 3 none =
      some ⟨exKeyA, false, false⟩ ∧
    ((newCreateIdempotentInstructionBuilder exKeyS exKeyT
        exKeyR).setTokenProgramID exKeyA).accounts.getD 5 none =
      some ⟨exKeyA, false, false⟩ :=
  (C10_role_flags exKeyS exKeyT exKeyR).2.2.1
    (newCreateIdempotentInstructionBuilder exKeyS exKeyT exKeyR) exKeyA
    (by decide)
